import Mathlib

/-!
Verification of the security core of the wasm-postgres-bridge repository.

The development shallowly embeds the TypeScript modules that the claims are
about:

* `src/security/validation.ts` (`InputValidator`): SQL classification,
  injection-pattern scanning, dangerous-keyword scanning, message validation;
* `src/security/auth.ts` (`AuthenticationManager`): credential checks, token
  issue/decode/validate, role-based query authorization, address rate limiting;
* `src/database/client.ts` (`PostgreSQLClient`): query execution with result
  caching and performance counters;
* `src/websocket/secure-server.ts` (`SecureWebSocketServer`): the message
  dispatch pipeline, audit logging, per-connection throttling.

JavaScript strings are modelled as `List Char` (ASCII fragment: the embedded
string operations `trim`, `toLowerCase`, `\s`, `\w` are modelled on their ASCII
behaviour, which is the behaviour exercised by every string the program
manipulates).  JavaScript numbers holding millisecond timestamps and counters
are modelled as `Nat`; the one floating-point average in the performance
metrics is modelled as an exact rational.  JavaScript `Map`s are modelled as
association lists in insertion order, which matches the iteration-order
semantics of `Map` (`set` of a fresh key appends, `set` of an existing key
updates in place, `keys().next()` yields the oldest surviving entry).
Asynchronous calls into the external database driver are modelled by passing
the driver's outcome as an explicit argument.
-/

namespace WPB

/-- JS strings are modelled as lists of characters. -/
abbrev Str := List Char

/-- Coerce a Lean string literal into the list-of-characters model. -/
def lit (s : String) : Str := s.toList

/-- JS whitespace class `\s`, ASCII fragment: space, tab, LF, VT, FF, CR. -/
def jsIsSpace (c : Char) : Bool :=
  c = ' ' || c = '\t' || c = '\n' || c = '\r' || c = Char.ofNat 11 || c = Char.ofNat 12

/-- JS `String.prototype.toLowerCase`, ASCII fragment. -/
def jsToLower (s : Str) : Str := s.map Char.toLower

/-- JS `String.prototype.toUpperCase`, ASCII fragment. -/
def jsToUpper (s : Str) : Str := s.map Char.toUpper

/-- JS `String.prototype.trim`: strip whitespace from both ends. -/
def jsTrim (s : Str) : Str :=
  ((s.dropWhile jsIsSpace).reverse.dropWhile jsIsSpace).reverse

/-- JS `s.startsWith(pre)`. -/
def jsStartsWith (s pre : Str) : Bool := pre.isPrefixOf s

/-- JS `s.includes(sub)` (substring test). -/
def jsIncludes (s sub : Str) : Bool :=
  match s with
  | [] => sub.isPrefixOf []
  | _ :: rest => sub.isPrefixOf s || jsIncludes rest sub

/-- JS truthiness of an optional string: `undefined` and `""` are falsy. -/
def jsTruthy (s : Option Str) : Bool :=
  match s with
  | none => false
  | some s => s ≠ []

/-- JS `Array.prototype.join(sep)`. -/
def joinSep (sep : Str) : List Str → Str
  | [] => []
  | [x] => x
  | x :: xs => x ++ sep ++ joinSep sep xs

/-- JS `String.prototype.split(sep)` for a single-character separator. -/
def splitOnChar (sep : Char) : Str → List Str
  | [] => [[]]
  | c :: cs =>
    match splitOnChar sep cs with
    | [] => if c = sep then [[], []] else [[c]]
    | h :: t => if c = sep then [] :: h :: t else (c :: h) :: t

/-- Split a string at the first occurrence of a character, `none` if absent. -/
def splitAtChar (ch : Char) : Str → Option (Str × Str)
  | [] => none
  | c :: cs =>
    if c = ch then some ([], cs)
    else (splitAtChar ch cs).map (fun p => (c :: p.1, p.2))

/-- Decimal rendering of a natural number (the JSON serialization of the
integer timestamps appearing in tokens). -/
def natToStr (n : Nat) : Str :=
  if h : n < 10 then [Char.ofNat (48 + n)]
  else natToStr (n / 10) ++ [Char.ofNat (48 + n % 10)]
decreasing_by
  exact Nat.div_lt_self (by omega) (by omega)

/-- Parse a nonempty all-digit string back into a natural number. -/
def parseNat (s : Str) : Option Nat :=
  if s ≠ [] ∧ s.all Char.isDigit then
    some (s.foldl (fun a c => a * 10 + (c.toNat - 48)) 0)
  else none

/-- Strip an expected literal prefix, returning the remainder. -/
def stripPrefixLit : Str → Str → Option Str
  | [], s => some s
  | _, [] => none
  | a :: as, b :: bs => if a = b then stripPrefixLit as bs else none

/-- Strip a literal prefix case-insensitively (for the `i` regex flag). -/
def stripCI : Str → Str → Option Str
  | [], s => some s
  | _, [] => none
  | a :: as, b :: bs => if a.toLower = b.toLower then stripCI as bs else none

/-- Association-list model of a JS `Map`: lookup by key. -/
def mapGet {α : Type} (k : Str) : List (Str × α) → Option α
  | [] => none
  | (k2, v) :: rest => if k2 = k then some v else mapGet k rest

/-- Association-list model of a JS `Map`: `set` updates in place or appends. -/
def mapSet {α : Type} (k : Str) (v : α) : List (Str × α) → List (Str × α)
  | [] => [(k, v)]
  | (k2, v2) :: rest => if k2 = k then (k, v) :: rest else (k2, v2) :: mapSet k v rest

/-- Association-list model of a JS `Map`: `delete` removes the entry. -/
def mapDelete {α : Type} (k : Str) : List (Str × α) → List (Str × α)
  | [] => []
  | (k2, v) :: rest => if k2 = k then rest else (k2, v) :: mapDelete k rest

/-- Keys of an association-list map. -/
def mapKeys {α : Type} (m : List (Str × α)) : List Str := m.map Prod.fst

/-! ## Input validator (`src/security/validation.ts`)

The eight `SQL_INJECTION_PATTERNS` regular expressions are embedded as
hand-written scanners over `List Char`.  A scanner receives the character
preceding the current position (`none` at the start of the string) so that the
`\b` word-boundary assertion can be evaluated, and is tried at every position
of the subject string by `scanPos`, matching the semantics of an unanchored
JavaScript `RegExp.test`. -/

/-- JS word-character class `\w` = `[A-Za-z0-9_]`. -/
def isWordChar (c : Char) : Bool := c.isAlphanum || c = '_'

/-- A `\b` assertion holds before a word character iff the previous character
is absent or not a word character. -/
def boundaryBefore (prev : Option Char) : Bool :=
  match prev with
  | none => true
  | some c => !isWordChar c

/-- A `\b` assertion holds after a word character iff the next character is
absent or not a word character. -/
def boundaryAfterAt (s : Str) : Bool :=
  match s with
  | [] => true
  | c :: _ => !isWordChar c

/-- Try a position predicate at every suffix of the subject, threading the
previous character (unanchored regex search). -/
def scanPos (p : Option Char → Str → Bool) : Option Char → Str → Bool
  | prev, [] => p prev []
  | prev, c :: cs => p prev (c :: cs) || scanPos p (some c) cs

/-- Regex `.` (anything but a line terminator; ASCII fragment). -/
def isDotChar (c : Char) : Bool := c ≠ '\n' && c ≠ '\r'

/-- After `\bunion\b`, search for `\bselect\b` with only `.`-matching
characters in between (the `.*` gap of pattern 1). -/
def hasSelectAfterGap : Option Char → Str → Bool
  | prev, s =>
    (boundaryBefore prev &&
      (match stripCI (lit ("select")) s with
       | some rest => boundaryAfterAt rest
       | none => false)) ||
    (match s with
     | [] => false
     | c :: cs => isDotChar c && hasSelectAfterGap (some c) cs)

/-- Position matcher for `/(\bunion\b.*\bselect\b)/i`. -/
def unionSelectAt (prev : Option Char) (s : Str) : Bool :=
  boundaryBefore prev &&
  (match stripCI (lit ("union")) s with
   | some rest => boundaryAfterAt rest && hasSelectAfterGap (some 'n') rest
   | none => false)

/-- Position matcher for the line-comment pattern `--\s*[a-zA-Z]`. -/
def lineCommentAt (_ : Option Char) (s : Str) : Bool :=
  match s with
  | '-' :: '-' :: rest =>
    match rest.dropWhile jsIsSpace with
    | c :: _ => c.isAlpha
    | [] => false
  | _ => false

/-- Search for the closing delimiter (star, slash) of a block comment. -/
def hasCloseComment : Str → Bool
  | '*' :: '/' :: _ => true
  | _ :: rest => hasCloseComment rest
  | [] => false

/-- Position matcher for `/\/\*[\s\S]*?\*\//`. -/
def blockCommentAt (_ : Option Char) (s : Str) : Bool :=
  match s with
  | '/' :: '*' :: rest => hasCloseComment rest
  | _ => false

/-- Keywords of the stacked-query pattern. -/
def stackedKeywords : List Str :=
  [lit ("drop"), lit ("truncate"), lit ("alter"), lit ("grant"),
   lit ("revoke"), lit ("exec"), lit ("execute")]

/-- Position matcher for `/;\s*(?:drop|truncate|alter|grant|revoke|exec|execute)\b/i`. -/
def stackedAt (_ : Option Char) (s : Str) : Bool :=
  match s with
  | ';' :: rest =>
    let afterWs := rest.dropWhile jsIsSpace
    stackedKeywords.any (fun kw =>
      match stripCI kw afterWs with
      | some r => boundaryAfterAt r
      | none => false)
  | _ => false

/-- Position matcher for `/(\bor\b|\band\b)\s+\d+\s*=\s*\d+/i`. -/
def boolBlindAt (prev : Option Char) (s : Str) : Bool :=
  boundaryBefore prev &&
  ([lit ("or"), lit ("and")].any (fun kw =>
    match stripCI kw s with
    | some r =>
      boundaryAfterAt r &&
      (let ws := r.takeWhile jsIsSpace
       let r1 := r.dropWhile jsIsSpace
       let ds := r1.takeWhile Char.isDigit
       let r2 := r1.dropWhile Char.isDigit
       let r3 := r2.dropWhile jsIsSpace
       ws ≠ [] && ds ≠ [] &&
       (match r3 with
        | '=' :: r4 =>
          match r4.dropWhile jsIsSpace with
          | c :: _ => c.isDigit
          | [] => false
        | _ => false))
    | none => false))

/-- Position matcher for `/(sleep|waitfor|delay)\s*\(/i`. -/
def timeBlindAt (_ : Option Char) (s : Str) : Bool :=
  [lit ("sleep"), lit ("waitfor"), lit ("delay")].any (fun kw =>
    match stripCI kw s with
    | some r =>
      (match r.dropWhile jsIsSpace with
       | '(' :: _ => true
       | _ => false)
    | none => false)

/-- Position matcher for `/information_schema/i`. -/
def infoSchemaAt (_ : Option Char) (s : Str) : Bool :=
  (stripCI (lit ("information_schema")) s).isSome

/-- Position matcher for `/(pg_sleep|version|current_user|current_database)\s*\(/i`. -/
def sysFnAt (_ : Option Char) (s : Str) : Bool :=
  [lit ("pg_sleep"), lit ("version"), lit ("current_user"),
   lit ("current_database")].any (fun kw =>
    match stripCI kw s with
    | some r =>
      (match r.dropWhile jsIsSpace with
       | '(' :: _ => true
       | _ => false)
    | none => false)

/-- One entry of `InputValidator.SQL_INJECTION_PATTERNS`: the regex source
text (used in the error message) and its matcher. -/
structure SQLInjectionPattern where
  source : Str
  test : Str → Bool

/-- Pattern 1: union-based injection. -/
def patUnionSelect : SQLInjectionPattern :=
  ⟨lit ("(\\bunion\\b.*\\bselect\\b)"), fun s => scanPos unionSelectAt none s⟩

/-- Pattern 2: SQL line comments. -/
def patLineComment : SQLInjectionPattern :=
  ⟨lit ("--\\s*[a-zA-Z]"), fun s => scanPos lineCommentAt none s⟩

/-- Pattern 3: block comments. -/
def patBlockComment : SQLInjectionPattern :=
  ⟨lit ("\\/\\*[\\s\\S]*?\\*\\/"), fun s => scanPos blockCommentAt none s⟩

/-- Pattern 4: dangerous stacked queries. -/
def patStacked : SQLInjectionPattern :=
  ⟨lit (";\\s*(?:drop|truncate|alter|grant|revoke|exec|execute)\\b"),
   fun s => scanPos stackedAt none s⟩

/-- Pattern 5: boolean-based blind injection. -/
def patBoolBlind : SQLInjectionPattern :=
  ⟨lit ("(\\bor\\b|\\band\\b)\\s+\\d+\\s*=\\s*\\d+"),
   fun s => scanPos boolBlindAt none s⟩

/-- Pattern 6: time-based blind injection. -/
def patTimeBlind : SQLInjectionPattern :=
  ⟨lit ("(sleep|waitfor|delay)\\s*\\("), fun s => scanPos timeBlindAt none s⟩

/-- Pattern 7: information-schema queries. -/
def patInfoSchema : SQLInjectionPattern :=
  ⟨lit ("information_schema"), fun s => scanPos infoSchemaAt none s⟩

/-- Pattern 8: privileged system functions. -/
def patSysFn : SQLInjectionPattern :=
  ⟨lit ("(pg_sleep|version|current_user|current_database)\\s*\\("),
   fun s => scanPos sysFnAt none s⟩

/-- `InputValidator.SQL_INJECTION_PATTERNS`, in source order. -/
def SQL_INJECTION_PATTERNS : List SQLInjectionPattern :=
  [patUnionSelect, patLineComment, patBlockComment, patStacked,
   patBoolBlind, patTimeBlind, patInfoSchema, patSysFn]

/-- `InputValidator.DANGEROUS_SQL_KEYWORDS`. -/
def DANGEROUS_SQL_KEYWORDS : List Str :=
  [lit ("drop"), lit ("delete"), lit ("truncate"), lit ("alter"),
   lit ("create"), lit ("grant"), lit ("revoke"), lit ("exec"),
   lit ("execute"), lit ("sp_"), lit ("xp_"), lit ("pg_"),
   lit ("dbms_"), lit ("utl_"), lit ("sys.")]

/-- Result record of `InputValidator.validateSQL`; `queryType` is the string
union from the TS interface. -/
structure SQLValidationResult where
  isValid : Bool
  isSafe : Bool
  errors : List Str
  warnings : List Str
  queryType : Str
deriving DecidableEq

/-- `InputValidator.detectQueryType`. -/
def detectQueryType (sql : Str) : Str :=
  let trimmed := jsToLower (jsTrim sql)
  if jsStartsWith trimmed (lit ("select")) then lit ("SELECT")
  else if jsStartsWith trimmed (lit ("insert")) then lit ("INSERT")
  else if jsStartsWith trimmed (lit ("update")) then lit ("UPDATE")
  else if jsStartsWith trimmed (lit ("delete")) then lit ("DELETE")
  else if jsStartsWith trimmed (lit ("create")) then lit ("CREATE")
  else if jsStartsWith trimmed (lit ("drop")) then lit ("DROP")
  else if jsStartsWith trimmed (lit ("alter")) then lit ("ALTER")
  else lit ("UNKNOWN")

/-- The single-quote character (`'`). -/
def squote : Char := Char.ofNat 39

/-- `InputValidator.isValidStringLiteral`: balanced single-quote count. -/
def isValidStringLiteral (sql : Str) : Bool :=
  (sql.countP (fun c => c = squote)) % 2 = 0

/-- Count non-overlapping matches of a position matcher that reports the
length of each match, advancing past each match as a JS global regex does. -/
def countScan (p : Option Char → Str → Option Nat) : Option Char → Str → Nat
  | _, [] => 0
  | prev, c :: cs =>
    match p prev (c :: cs) with
    | some len =>
      1 + countScan p (some ((c :: cs).getD (len - 1) c)) (cs.drop (len - 1))
    | none => countScan p (some c) cs
termination_by _ s => s.length
decreasing_by
  all_goals simp_wf
  all_goals omega

/-- Length-reporting matcher for a whole word, case-insensitively
(`/\bword\b/gi`). -/
def wordAt (w : Str) (prev : Option Char) (s : Str) : Option Nat :=
  if boundaryBefore prev then
    match stripCI w s with
    | some r => if boundaryAfterAt r then some w.length else none
    | none => none
  else none

/-- Length-reporting matcher for `/\(\s*select\b/gi`. -/
def subqueryAt (_ : Option Char) (s : Str) : Option Nat :=
  match s with
  | '(' :: rest =>
    let ws := rest.takeWhile jsIsSpace
    (match stripCI (lit ("select")) (rest.dropWhile jsIsSpace) with
     | some r => if boundaryAfterAt r then some (1 + ws.length + 6) else none
     | none => none)
  | _ => none

/-- Length-reporting matcher for `/\band\b|\bor\b/gi`. -/
def andOrAt (prev : Option Char) (s : Str) : Option Nat :=
  match wordAt (lit ("and")) prev s with
  | some n => some n
  | none => wordAt (lit ("or")) prev s

/-- Length-reporting matcher for `/\w+\s*\(/g`. -/
def funcCallAt (prev : Option Char) (s : Str) : Option Nat :=
  match s with
  | c :: _ =>
    if isWordChar c && !(match prev with | some p => isWordChar p | none => false) then
      let w := s.takeWhile isWordChar
      let r1 := s.dropWhile isWordChar
      let ws := r1.takeWhile jsIsSpace
      (match r1.dropWhile jsIsSpace with
       | '(' :: _ => some (w.length + ws.length + 1)
       | _ => none)
    else none
  | [] => none

/-- `InputValidator.calculateQueryComplexity`. -/
def calculateQueryComplexity (sql : Str) : Nat :=
  countScan (wordAt (lit ("join"))) none sql * 5 +
  countScan subqueryAt none sql * 10 +
  countScan (wordAt (lit ("union"))) none sql * 8 +
  countScan (wordAt (lit ("where"))) none sql * 2 +
  countScan andOrAt none sql * 1 +
  countScan funcCallAt none sql * 1

/-- `InputValidator.validateSQL`. -/
def validateSQL (sql : Str) (allowedOperations : List Str) : SQLValidationResult :=
  if sql = [] then
    { isValid := false, isSafe := false,
      errors := [lit ("SQL query must be a non-empty string")],
      warnings := [], queryType := lit ("UNKNOWN") }
  else
    let normalizedSQL := jsToLower (jsTrim sql)
    let queryType := detectQueryType normalizedSQL
    let typeErrors :=
      if (allowedOperations.map jsToLower).any (fun o => o = jsToLower queryType) then []
      else [lit ("Query type \x27") ++ queryType ++
            lit ("\x27 is not allowed. Allowed operations: ") ++
            joinSep (lit (", ")) allowedOperations]
    let injectionErrors :=
      (SQL_INJECTION_PATTERNS.filter (fun p => p.test sql)).map
        (fun p => lit ("Potential SQL injection detected: ") ++ p.source)
    let foundDangerous :=
      DANGEROUS_SQL_KEYWORDS.filter (fun keyword =>
        jsIncludes normalizedSQL (jsToLower keyword) &&
        !(jsToUpper keyword = queryType &&
          allowedOperations.any (fun o => o = jsToUpper keyword)))
    let dangerousErrors :=
      if foundDangerous ≠ [] then
        [lit ("Dangerous SQL keywords detected: ") ++ joinSep (lit (", ")) foundDangerous]
      else []
    let lengthErrors :=
      if sql.length > 10000 then [lit ("Query too long (max 10,000 characters)")] else []
    let tautWarnings :=
      if jsIncludes normalizedSQL (lit ("1=1")) || jsIncludes normalizedSQL (lit ("1 = 1")) then
        [lit ("Suspicious pattern detected: \x221=1\x22 condition")]
      else []
    let quoteWarnings :=
      if jsIncludes normalizedSQL [squote] && !isValidStringLiteral sql then
        [lit ("Unescaped quotes detected - potential injection risk")]
      else []
    let complexity := calculateQueryComplexity normalizedSQL
    let complexityWarnings :=
      if complexity > 100 then
        [lit ("Query complexity is high (") ++ natToStr complexity ++
         lit ("). Consider simplifying.")]
      else []
    let errors := typeErrors ++ injectionErrors ++ dangerousErrors ++ lengthErrors
    let warnings := tautWarnings ++ quoteWarnings ++ complexityWarnings
    { isValid := errors.isEmpty, isSafe := errors.isEmpty && warnings.isEmpty,
      errors := errors, warnings := warnings, queryType := queryType }

/-! ## Authentication manager (`src/security/auth.ts`)

Platform pieces used by the token scheme are modelled as follows.
`Buffer.from(s).toString('base64')` / `Buffer.from(t,'base64').toString('utf8')`
are embedded as real base64 over the character codes (the strings involved are
ASCII, for which the utf8 byte encoding is the identity on codes); decoding
returns `none` on malformed input, which downstream code treats exactly as the
`try`/`catch` in `decodeToken` treats a platform decode producing garbage.
`crypto.createHmac('sha256', secret).update(data).digest('hex')` is embedded as
a deterministic keyed digest rendered as an 8-character lowercase hex string;
the development relies only on the digest being a deterministic function of
`(secret, data)` whose output draws from the hex alphabet (so it is ASCII and
dot-free), which is true of the real HMAC hex digest.  `JSON.stringify` of the
token payload is embedded concretely (fields in declaration order, as V8
serializes them), and `JSON.parse` as its specialized inverse, which agrees
with the real parser on every string the program ever feeds it. -/

/-- The base64 alphabet. -/
def b64Chars : Str :=
  lit ("ABCDEFGHIJKLMNOPQRSTUVWXYZabcdefghijklmnopqrstuvwxyz0123456789+/")

/-- Character for a sextet. -/
def sextetChar (n : Nat) : Char := b64Chars.getD n 'A'

/-- Sextet for a character, `none` outside the alphabet. -/
def charSextet (c : Char) : Option Nat := b64Chars.indexOf? c

/-- Base64-encode a byte list (standard alphabet, with padding). -/
def b64EncodeBytes : List Nat → Str
  | [] => []
  | [a] => [sextetChar (a / 4), sextetChar (a % 4 * 16), '=', '=']
  | [a, b] => [sextetChar (a / 4), sextetChar (a % 4 * 16 + b / 16),
               sextetChar (b % 16 * 4), '=']
  | a :: b :: c :: rest =>
    sextetChar (a / 4) :: sextetChar (a % 4 * 16 + b / 16) ::
    sextetChar (b % 16 * 4 + c / 64) :: sextetChar (c % 64) ::
    b64EncodeBytes rest

/-- Base64-decode to a byte list; `none` on malformed input. -/
def b64DecodeBytes : Str → Option (List Nat)
  | [] => some []
  | [w, x, '=', '='] => do
    let a ← charSextet w
    let b ← charSextet x
    pure [a * 4 + b / 16]
  | [w, x, y, '='] => do
    let a ← charSextet w
    let b ← charSextet x
    let c ← charSextet y
    pure [a * 4 + b / 16, b % 16 * 16 + c / 4]
  | w :: x :: y :: z :: rest => do
    let a ← charSextet w
    let b ← charSextet x
    let c ← charSextet y
    let d ← charSextet z
    let tail ← b64DecodeBytes rest
    pure ((a * 4 + b / 16) :: (b % 16 * 16 + c / 4) :: (c % 4 * 64 + d) :: tail)
  | _ => none

/-- Base64 encoding of an (ASCII) string, via its character codes. -/
def b64Encode (s : Str) : Str := b64EncodeBytes (s.map Char.toNat)

/-- Base64 decoding back to an (ASCII) string. -/
def b64Decode (s : Str) : Option Str :=
  (b64DecodeBytes s).map (List.map Char.ofNat)

/-- Model of the HMAC-SHA256 hex digest (see the section comment): a
deterministic keyed digest of `(secret, data)`. -/
def hmacDigest (secret data : Str) : Nat :=
  (secret ++ data).foldl (fun a c => (a * 31 + c.toNat + 7) % 4294967296) 5381

/-- Lowercase hex digit. -/
def hexDigit (n : Nat) : Char := (lit ("0123456789abcdef")).getD n '0'

/-- Fixed-width hex rendering of the digest. -/
def toHex8 (n : Nat) : Str :=
  [hexDigit (n / 16 ^ 7 % 16), hexDigit (n / 16 ^ 6 % 16), hexDigit (n / 16 ^ 5 % 16),
   hexDigit (n / 16 ^ 4 % 16), hexDigit (n / 16 ^ 3 % 16), hexDigit (n / 16 ^ 2 % 16),
   hexDigit (n / 16 % 16), hexDigit (n % 16)]

/-- `AuthenticationManager.createSignature` (on top of the digest model). -/
def createSignature (jwtSecret data : Str) : Str := toHex8 (hmacDigest jwtSecret data)

/-- `AuthConfig` from `src/security/auth.ts` (times in milliseconds). -/
structure AuthConfig where
  jwtSecret : Str
  apiKeys : List Str
  sessionTimeout : Nat
  maxFailedAttempts : Nat
  lockoutDuration : Nat
deriving DecidableEq

/-- `User` from `src/security/auth.ts`; the role is the TS string union. -/
structure User where
  id : Str
  username : Str
  role : Str
  permissions : List Str
  createdAt : Nat
  lastLogin : Option Nat := none
deriving DecidableEq

/-- `AuthToken` (the token payload). -/
structure AuthToken where
  userId : Str
  username : Str
  role : Str
  permissions : List Str
  issuedAt : Nat
  expiresAt : Nat
deriving DecidableEq

/-- `AuthResult`. -/
structure AuthResult where
  success : Bool
  user : Option User := none
  token : Option Str := none
  error : Option Str := none
deriving DecidableEq

/-- `RateLimitInfo`. -/
structure RateLimitInfo where
  attempts : Nat
  lastAttempt : Nat
  lockedUntil : Option Nat := none
deriving DecidableEq

/-- Mutable state of an `AuthenticationManager` (its three maps). -/
structure AuthState where
  users : List (Str × User)
  sessions : List (Str × AuthToken)
  rateLimits : List (Str × RateLimitInfo)
deriving DecidableEq

/-- JSON rendering of a string list (`JSON.stringify` of an array of clean
strings). -/
def jsonStrList (l : List Str) : Str :=
  '[' :: joinSep [','] (l.map (fun s => '"' :: s ++ ['"'])) ++ [']']

/-- `JSON.stringify` of an `AuthToken` payload, fields in declaration order. -/
def jsonStringifyAuthToken (t : AuthToken) : Str :=
  lit ("\x7b\x22userId\x22:\x22") ++ t.userId ++
  lit ("\x22,\x22username\x22:\x22") ++ t.username ++
  lit ("\x22,\x22role\x22:\x22") ++ t.role ++
  lit ("\x22,\x22permissions\x22:") ++ jsonStrList t.permissions ++
  lit (",\x22issuedAt\x22:") ++ natToStr t.issuedAt ++
  lit (",\x22expiresAt\x22:") ++ natToStr t.expiresAt ++
  lit ("\x7d")

/-- Parse one element of the serialized permissions array (strip the
surrounding quotes). -/
def unquoteElem (e : Str) : Option Str :=
  match e with
  | '"' :: rest =>
    match rest.reverse with
    | '"' :: mid => some mid.reverse
    | _ => none
  | _ => none

/-- Parse the serialized permissions array. -/
def parseStrList (s : Str) : Option (List Str × Str) :=
  match s with
  | '[' :: rest =>
    match splitAtChar ']' rest with
    | some (inner, r) =>
      if inner = [] then some ([], r)
      else
        match (splitOnChar ',' inner).mapM unquoteElem with
        | some l => some (l, r)
        | none => none
    | none => none
  | _ => none

/-- Model of `JSON.parse` specialized to the canonical serialization produced
by `jsonStringifyAuthToken`; returns `none` on any other shape (the
`try`/`catch` in `decodeToken` maps a parse failure to `null`). -/
def parseAuthToken (s : Str) : Option AuthToken := do
  let s ← stripPrefixLit (lit ("\x7b\x22userId\x22:\x22")) s
  let (userId, s) ← splitAtChar '"' s
  let s ← stripPrefixLit (lit (",\x22username\x22:\x22")) s
  let (username, s) ← splitAtChar '"' s
  let s ← stripPrefixLit (lit (",\x22role\x22:\x22")) s
  let (role, s) ← splitAtChar '"' s
  let s ← stripPrefixLit (lit (",\x22permissions\x22:")) s
  let (permissions, s) ← parseStrList s
  let s ← stripPrefixLit (lit (",\x22issuedAt\x22:")) s
  let issuedAt ← parseNat (s.takeWhile Char.isDigit)
  let s := s.dropWhile Char.isDigit
  let s ← stripPrefixLit (lit (",\x22expiresAt\x22:")) s
  let expiresAt ← parseNat (s.takeWhile Char.isDigit)
  let s := s.dropWhile Char.isDigit
  match s with
  | ['\x7d'] => some ⟨userId, username, role, permissions, issuedAt, expiresAt⟩
  | _ => none

/-- The token payload `generateToken` builds for a user at time `now`. -/
def tokenPayload (config : AuthConfig) (user : User) (now : Nat) : AuthToken :=
  { userId := user.id, username := user.username, role := user.role,
    permissions := user.permissions, issuedAt := now,
    expiresAt := now + config.sessionTimeout }

/-- The opaque token string `generateToken` returns:
`base64(tokenData ++ "." ++ signature)`. -/
def generateTokenStr (config : AuthConfig) (user : User) (now : Nat) : Str :=
  let tokenData := jsonStringifyAuthToken (tokenPayload config user now)
  let signature := createSignature config.jwtSecret tokenData
  b64Encode (tokenData ++ '.' :: signature)

/-- `AuthenticationManager.generateToken`: returns the token and records the
session. -/
def generateToken (config : AuthConfig) (st : AuthState) (user : User) (now : Nat) :
    AuthState × Str :=
  let token := generateTokenStr config user now
  ({ st with sessions := mapSet token (tokenPayload config user now) st.sessions }, token)

/-- `AuthenticationManager.decodeToken`. -/
def decodeToken (config : AuthConfig) (token : Str) : Option AuthToken :=
  match b64Decode token with
  | none => none
  | some decoded =>
    match splitOnChar '.' decoded with
    | tokenData :: signature :: _ =>
      if signature = createSignature config.jwtSecret tokenData then
        parseAuthToken tokenData
      else none
    | _ => none

/-- `AuthenticationManager.validateToken`. -/
def validateToken (config : AuthConfig) (st : AuthState) (token : Str) (now : Nat) :
    AuthState × AuthResult :=
  match decodeToken config token with
  | none => (st, { success := false, error := some (lit ("Invalid token format")) })
  | some decoded =>
    if now > decoded.expiresAt then
      ({ st with sessions := mapDelete token st.sessions },
       { success := false, error := some (lit ("Token expired")) })
    else
      match mapGet decoded.username st.users with
      | none => (st, { success := false, error := some (lit ("User not found")) })
      | some user => (st, { success := true, user := some user, token := some token })

/-- `AuthenticationManager.validateCredentials` (the demo credential table). -/
def validateCredentials (username password : Str) : Bool :=
  (username = lit ("admin") && password = lit ("admin123")) ||
  (username = lit ("user") && password = lit ("user123")) ||
  (username = lit ("readonly") && password = lit ("readonly123"))

/-- `AuthenticationManager.isRateLimited`. -/
def isRateLimited (config : AuthConfig) (st : AuthState) (clientIp : Str) (now : Nat) :
    Bool :=
  match mapGet clientIp st.rateLimits with
  | none => false
  | some limit =>
    (match limit.lockedUntil with
     | some lockedUntil => now < lockedUntil
     | none => false) ||
    (limit.attempts ≥ config.maxFailedAttempts &&
     now - limit.lastAttempt < config.lockoutDuration)

/-- `AuthenticationManager.recordFailedAttempt`. -/
def recordFailedAttempt (config : AuthConfig) (st : AuthState) (clientIp : Str)
    (now : Nat) : AuthState :=
  let existing := (mapGet clientIp st.rateLimits).getD ⟨0, 0, none⟩
  let attempts := existing.attempts + 1
  let updated : RateLimitInfo :=
    { attempts := attempts, lastAttempt := now,
      lockedUntil :=
        if attempts ≥ config.maxFailedAttempts then
          some (now + config.lockoutDuration)
        else existing.lockedUntil }
  { st with rateLimits := mapSet clientIp updated st.rateLimits }

/-- `AuthenticationManager.authenticateUser` (username/password). -/
def authenticateUser (config : AuthConfig) (st : AuthState)
    (username password clientIp : Str) (now : Nat) : AuthState × AuthResult :=
  if isRateLimited config st clientIp now then
    (st, { success := false,
           error := some (lit ("Too many failed attempts. Please try again later.")) })
  else if !validateCredentials username password then
    (recordFailedAttempt config st clientIp now,
     { success := false, error := some (lit ("Invalid username or password")) })
  else
    match mapGet username st.users with
    | none =>
      (recordFailedAttempt config st clientIp now,
       { success := false, error := some (lit ("User not found")) })
    | some user =>
      let st := { st with rateLimits := mapDelete clientIp st.rateLimits }
      let user := { user with lastLogin := some now }
      let st := { st with users := mapSet username user st.users }
      let (st, token) := generateToken config st user now
      (st, { success := true, user := some user, token := some token })

/-- `AuthenticationManager.authenticateApiKey`. -/
def authenticateApiKey (config : AuthConfig) (apiKey : Str) (now : Nat) : AuthResult :=
  if !config.apiKeys.any (fun k => k = apiKey) then
    { success := false, error := some (lit ("Invalid API key")) }
  else
    { success := true,
      user := some { id := lit ("service-001"), username := lit ("service"),
                     role := lit ("user"), permissions := [lit ("read"), lit ("write")],
                     createdAt := now } }

/-- Result pair of `AuthenticationManager.isQueryAllowed`. -/
structure QueryAllowed where
  allowed : Bool
  reason : Option Str := none
deriving DecidableEq

/-- `AuthenticationManager.isQueryAllowed`: role policy on a statement. -/
def isQueryAllowed (user : User) (sql : Str) : QueryAllowed :=
  let normalizedSql := jsTrim (jsToLower sql)
  if user.role = lit ("admin") then { allowed := true }
  else if user.role = lit ("readonly") then
    if !jsStartsWith normalizedSql (lit ("select")) then
      { allowed := false,
        reason := some (lit ("Readonly users can only execute SELECT queries")) }
    else { allowed := true }
  else if user.role = lit ("user") then
    let dangerousKeywords := [lit ("drop"), lit ("delete"), lit ("truncate"), lit ("alter")]
    if dangerousKeywords.any (fun keyword => jsIncludes normalizedSql keyword) then
      { allowed := false,
        reason := some (lit ("Users cannot execute destructive operations (DROP, DELETE, TRUNCATE, ALTER)")) }
    else { allowed := true }
  else { allowed := false, reason := some (lit ("Unknown user role")) }

/-- The default user registry installed by `initializeDefaultUsers`
(creation time abstracted to 0). -/
def defaultUsers : List (Str × User) :=
  [(lit ("admin"),
    { id := lit ("admin-001"), username := lit ("admin"), role := lit ("admin"),
      permissions := [lit ("read"), lit ("write"), lit ("delete"), lit ("admin")],
      createdAt := 0 }),
   (lit ("user"),
    { id := lit ("user-001"), username := lit ("user"), role := lit ("user"),
      permissions := [lit ("read"), lit ("write")], createdAt := 0 }),
   (lit ("readonly"),
    { id := lit ("readonly-001"), username := lit ("readonly"), role := lit ("readonly"),
      permissions := [lit ("read")], createdAt := 0 })]

/-- Initial `AuthenticationManager` state after construction. -/
def initialAuthState : AuthState := ⟨defaultUsers, [], []⟩

/-! ## Database client (`src/database/client.ts`)

`PostgreSQLClient.query` is embedded as a state-transition function.  The
external driver call `pool.connect()`/`client.query(sql, params)` is modelled
by an explicit `driverResult` argument (`Except` models the promise rejection
caught by the surrounding `try`), and the wall-clock reads by explicit `now`
(start time) and `dur` (measured duration) arguments.  Rows are opaque
records.  The floating-point `averageQueryTime` is modelled as an exact
rational. -/

/-- Opaque database row. -/
abbrev Row := List (Str × Str)

/-- Post-constructor configuration of a `PostgreSQLClient` (after the `??`
defaulting in the constructor). -/
structure DbConfig where
  enableCache : Bool
  cacheMaxSize : Nat
  cacheTtlMs : Nat
deriving DecidableEq

/-- `QueryCacheEntry`. -/
structure QueryCacheEntry where
  result : List Row
  timestamp : Nat
  ttl : Nat
deriving DecidableEq

/-- `PerformanceMetrics`. -/
structure PerformanceMetrics where
  queryCount : Nat
  totalQueryTime : Nat
  averageQueryTime : ℚ
  slowQueries : List (Str × Nat × Nat)
  cacheHits : Nat
  cacheMisses : Nat
  cacheHitRate : ℚ
deriving DecidableEq

/-- Fresh metrics (all zero). -/
def initialMetrics : PerformanceMetrics := ⟨0, 0, 0, [], 0, 0, 0⟩

/-- Mutable state of a `PostgreSQLClient`. -/
structure DbState where
  queryCache : List (Str × QueryCacheEntry)
  metrics : PerformanceMetrics
deriving DecidableEq

/-- Outcome of one `query` call: a cache hit, an executed query, or a wrapped
driver failure. -/
inductive QueryOutcome where
  | cacheHit (rows : List Row)
  | executed (rows : List Row)
  | failed (message : Str)
deriving DecidableEq

/-- `PostgreSQLClient.generateCacheKey`. -/
def generateCacheKey (sql : Str) (params : Option (List Str)) : Str :=
  let normalizedSql := jsToLower (jsTrim sql)
  let paramString := match params with
    | some l => jsonStrList l
    | none => []
  normalizedSql ++ ':' :: paramString

/-- `PostgreSQLClient.isSelectQuery`. -/
def isSelectQuery (sql : Str) : Bool :=
  jsStartsWith (jsToLower (jsTrim sql)) (lit ("select"))

/-- The `cacheMaxSize || 100` read in `setCachedResult` (JS `||`: zero falls
back to the default). -/
def effMaxSize (config : DbConfig) : Nat :=
  if config.cacheMaxSize = 0 then 100 else config.cacheMaxSize

/-- The `cacheTtlMs || 300000` read in `setCachedResult`. -/
def effTtl (config : DbConfig) : Nat :=
  if config.cacheTtlMs = 0 then 300000 else config.cacheTtlMs

/-- `PostgreSQLClient.getCachedResult`: returns the fresh cached rows if any,
deleting a stale entry. -/
def getCachedResult (cache : List (Str × QueryCacheEntry)) (cacheKey : Str)
    (now : Nat) : List (Str × QueryCacheEntry) × Option (List Row) :=
  match mapGet cacheKey cache with
  | none => (cache, none)
  | some entry =>
    if now - entry.timestamp > entry.ttl then
      (mapDelete cacheKey cache, none)
    else (cache, some entry.result)

/-- `PostgreSQLClient.setCachedResult`: evict the oldest surviving entry when
at capacity (guarded by JS truthiness of the key), then insert. -/
def setCachedResult (config : DbConfig) (cache : List (Str × QueryCacheEntry))
    (cacheKey : Str) (result : List Row) (now : Nat) :
    List (Str × QueryCacheEntry) :=
  let cache :=
    if cache.length ≥ effMaxSize config then
      match cache.head? with
      | some (oldestKey, _) =>
        if oldestKey ≠ [] then mapDelete oldestKey cache else cache
      | none => cache
    else cache
  mapSet cacheKey ⟨result, now, effTtl config⟩ cache

/-- `PostgreSQLClient.updateCacheHitRate`. -/
def updateCacheHitRate (m : PerformanceMetrics) : PerformanceMetrics :=
  let total := m.cacheHits + m.cacheMisses
  { m with cacheHitRate := if total > 0 then (m.cacheHits : ℚ) / total * 100 else 0 }

/-- `PostgreSQLClient.updatePerformanceMetrics`. -/
def updatePerformanceMetrics (m : PerformanceMetrics) (sql : Str) (dur now : Nat) :
    PerformanceMetrics :=
  let m := { m with queryCount := m.queryCount + 1,
                    totalQueryTime := m.totalQueryTime + dur }
  let m := { m with averageQueryTime := (m.totalQueryTime : ℚ) / m.queryCount }
  let m :=
    if dur > 1000 then
      let slow := m.slowQueries ++ [(sql.take 100, dur, now)]
      { m with slowQueries := if slow.length > 10 then slow.drop 1 else slow }
    else m
  updateCacheHitRate m

/-- `PostgreSQLClient.query` as a state transition.  `driverResult` is the
outcome of the external driver call; it is consumed only on the execution
path. -/
def queryStep (config : DbConfig) (st : DbState) (sql : Str)
    (params : Option (List Str)) (driverResult : Except Str (List Row))
    (now dur : Nat) : DbState × QueryOutcome :=
  let cacheKey := generateCacheKey sql params
  let (st, hit) :=
    if config.enableCache && isSelectQuery sql then
      let (cache, found) := getCachedResult st.queryCache cacheKey now
      match found with
      | some rows =>
        ({ queryCache := cache,
           metrics := updateCacheHitRate
             { st.metrics with cacheHits := st.metrics.cacheHits + 1 } },
         some rows)
      | none =>
        ({ queryCache := cache,
           metrics := { st.metrics with cacheMisses := st.metrics.cacheMisses + 1 } },
         none)
    else (st, none)
  match hit with
  | some rows => (st, .cacheHit rows)
  | none =>
    match driverResult with
    | .error e =>
      (st, .failed (lit ("Query execution failed: ") ++ e))
    | .ok rows =>
      let cache :=
        if config.enableCache && isSelectQuery sql then
          setCachedResult config st.queryCache cacheKey rows now
        else st.queryCache
      ({ queryCache := cache,
         metrics := updatePerformanceMetrics st.metrics sql dur now },
       .executed rows)

/-! ## Secure WebSocket gateway (`src/websocket/secure-server.ts`)

One inbound frame is processed by `handleMessage`.  A frame that
`JSON.parse` rejects is modelled by `Inbound.unparseable`; a parsed frame by
the structured record `WsMsg` (`Option` fields model absent / non-string
properties; `size` models `JSON.stringify(data).length`, which is not
derivable inside the shallow embedding).  `validateWebSocketMessage`'s
`sanitized` output is the message itself: with `skipSqlSanitization = true`
string values are returned untouched and the only keys occurring in the
modelled structure are fixed alphanumeric literals, on which `sanitizeString`
is the identity.  The `details` payload of an audit entry is not modelled
(claims only concern entry counts and outcome fields).  The external
`dbClient.query` call is modelled by the `dbResult` argument together with the
`dbCalled` output flag recording whether the execution branch consumed it. -/

/-- `SecurityConfig` (the `AuthConfig` extension). -/
structure SecurityConfig where
  auth : AuthConfig
  requireAuth : Bool
  maxRequestsPerMinute : Nat
  allowedQueryTypes : List Str
  enableAuditLog : Bool
deriving DecidableEq

/-- `AuditLogEntry` (without the free-form `details` payload). -/
structure AuditEntry where
  timestamp : Nat
  clientId : Str
  userId : Option Str := none
  action : Str
  success : Bool
  error : Option Str := none
deriving DecidableEq

/-- `AuthenticatedClient` (the socket handle is not modelled). -/
structure ClientRec where
  user : User
  clientId : Str
  connectedAt : Nat
  lastActivity : Nat
  requestCount : Nat
deriving DecidableEq

/-- Mutable state of a `SecureWebSocketServer`. -/
structure ServerState where
  authenticatedClients : List (Str × ClientRec)
  auditLog : List AuditEntry
  auth : AuthState
deriving DecidableEq

/-- Payload of a parsed frame: the union of the fields the server reads
(absent properties are `none`). -/
structure Payload where
  sql : Option Str := none
  params : Option (List Str) := none
  token : Option Str := none
  apiKey : Option Str := none
  username : Option Str := none
  password : Option Str := none
deriving DecidableEq

/-- A parsed inbound frame. -/
structure WsMsg where
  type : Option Str := none
  payload : Option Payload := none
  id : Option Str := none
  size : Nat := 0
deriving DecidableEq

/-- An inbound frame: unparseable JSON or a parsed message. -/
inductive Inbound where
  | unparseable
  | msg (m : WsMsg)
deriving DecidableEq

/-- Payload of an outbound `result` envelope. -/
inductive ResultPayload where
  | welcome (clientId : Str) (authRequired : Bool)
  | authSuccess (userId username role : Str) (permissions : List Str)
      (token : Option Str)
  | pong (timestamp : Nat) (clientId : Str)
  | queryResult (sql : Str) (params : List Str) (rows : List Row)
      (rowCount : Nat) (executionTime : Nat) (timestamp : Nat)
      (warnings : List Str)
deriving DecidableEq

/-- An outbound envelope. -/
inductive OutMsg where
  | result (payload : ResultPayload) (id : Option Str)
  | error (code : Str) (message : Str) (id : Option Str)
deriving DecidableEq

/-- `InputValidator.validateWebSocketMessage`, specialized to the modelled
frame structure: the list of structural errors (empty iff valid). -/
def validateWebSocketMessage (m : WsMsg) : List Str :=
  let typeErrors :=
    if !jsTruthy m.type then
      [lit ("Message must have a valid \x22type\x22 field")]
    else []
  let payloadErrors :=
    if m.payload = none then [lit ("Message must have a \x22payload\x22 field")] else []
  let validTypes := [lit ("query"), lit ("auth"), lit ("ping"), lit ("result"), lit ("error")]
  let knownTypeErrors :=
    match m.type with
    | some t =>
      if t ≠ [] && !validTypes.any (fun v => v = t) then
        [lit ("Invalid message type \x22") ++ t ++
         lit ("\x22. Valid types: query, auth, ping, result, error")]
      else []
    | none => []
  let queryErrors :=
    if m.type = some (lit ("query")) then
      match m.payload with
      | some p =>
        if !jsTruthy p.sql then
          [lit ("Query message must have a valid \x22sql\x22 field in payload")]
        else []
      | none => []
    else []
  let authErrors :=
    if m.type = some (lit ("auth")) then
      match m.payload with
      | some p =>
        if !jsTruthy p.token && !jsTruthy p.apiKey &&
           (!jsTruthy p.username || !jsTruthy p.password) then
          [lit ("Auth message must have token, apiKey, or username/password")]
        else []
      | none => []
    else []
  let sizeErrors :=
    if m.size > 100000 then [lit ("Message too large (max 100KB)")] else []
  typeErrors ++ payloadErrors ++ knownTypeErrors ++ queryErrors ++ authErrors ++ sizeErrors

/-- `SecureWebSocketServer.logAudit`: append when enabled, bounded to 1000. -/
def logAudit (config : SecurityConfig) (log : List AuditEntry) (entry : AuditEntry) :
    List AuditEntry :=
  if !config.enableAuditLog then log
  else
    let log := log ++ [entry]
    if log.length > 1000 then log.drop 1 else log

/-- `SecureWebSocketServer.checkRateLimit` (per-connection request throttle);
also performs the counter reset it applies to the stored client. -/
def checkRateLimit (config : SecurityConfig) (st : ServerState) (clientId : Str)
    (now : Nat) : ServerState × Bool :=
  match mapGet clientId st.authenticatedClients with
  | none => (st, true)
  | some client =>
    let client :=
      if client.lastActivity < now - 60000 then { client with requestCount := 0 }
      else client
    ({ st with authenticatedClients := mapSet clientId client st.authenticatedClients },
     client.requestCount < config.maxRequestsPerMinute)

/-- The fixed anonymous identity attached when `requireAuth` is false. -/
def anonymousUser (now : Nat) : User :=
  { id := lit ("anonymous"), username := lit ("anonymous"),
    role := lit ("readonly"), permissions := [lit ("read")], createdAt := now }

/-- `SecureWebSocketServer.handleConnection`: register the anonymous client
when authentication is disabled, and send the welcome envelope. -/
def handleConnection (config : SecurityConfig) (st : ServerState) (clientId : Str)
    (now : Nat) : ServerState × OutMsg :=
  let anonClient : ClientRec :=
    { user := anonymousUser now, clientId := clientId, connectedAt := now,
      lastActivity := now, requestCount := 0 }
  let st :=
    if !config.requireAuth then
      { st with authenticatedClients := mapSet clientId anonClient st.authenticatedClients }
    else st
  (st, .result (.welcome clientId config.requireAuth) (some (lit ("welcome"))))

/-- Output of one message-handling step: the new state, the response sent,
and whether the database driver was invoked. -/
structure HandleOut where
  st : ServerState
  out : OutMsg
  dbCalled : Bool
deriving DecidableEq

/-- `SecureWebSocketServer.handleAuthMessage`. -/
def handleAuthMessage (config : SecurityConfig) (st : ServerState)
    (m : WsMsg) (clientId clientIp : Str) (now : Nat) : HandleOut :=
  match m.payload with
  | none =>
    -- property access on a missing payload throws; the handler's catch sends
    -- a generic auth failure (unreachable behind validation)
    ⟨st, .error (lit ("AUTH_ERROR")) (lit ("Authentication failed")) m.id, false⟩
  | some p =>
    let (authSt, authResult) :=
      if jsTruthy p.token then
        validateToken config.auth st.auth (p.token.getD []) now
      else if jsTruthy p.apiKey then
        (st.auth, authenticateApiKey config.auth (p.apiKey.getD []) now)
      else if jsTruthy p.username && jsTruthy p.password then
        authenticateUser config.auth st.auth (p.username.getD []) (p.password.getD [])
          clientIp now
      else
        (st.auth, { success := false })
    if !(jsTruthy p.token) && !(jsTruthy p.apiKey) &&
       !(jsTruthy p.username && jsTruthy p.password) then
      ⟨{ st with auth := authSt },
       .error (lit ("AUTH_ERROR")) (lit ("Invalid authentication payload")) m.id, false⟩
    else
      match authResult.success, authResult.user with
      | true, some user =>
        let rec0 : ClientRec :=
          { user := user, clientId := clientId, connectedAt := now,
            lastActivity := now, requestCount := 0 }
        let entry : AuditEntry :=
          { timestamp := now, clientId := clientId, userId := some user.id,
            action := lit ("authentication"), success := true }
        let st :=
          { st with
            auth := authSt,
            authenticatedClients := mapSet clientId rec0 st.authenticatedClients }
        let st := { st with auditLog := logAudit config st.auditLog entry }
        ⟨st, .result (.authSuccess user.id user.username user.role user.permissions
                        authResult.token) m.id, false⟩
      | _, _ =>
        let entry : AuditEntry :=
          { timestamp := now, clientId := clientId,
            action := lit ("authentication"), success := false,
            error := authResult.error }
        let st := { st with auth := authSt }
        let st := { st with auditLog := logAudit config st.auditLog entry }
        ⟨st, .error (lit ("AUTH_ERROR"))
               ((authResult.error).getD (lit ("Authentication failed"))) m.id, false⟩

/-- `SecureWebSocketServer.handleQueryMessage`. -/
def handleQueryMessage (config : SecurityConfig) (st : ServerState)
    (m : WsMsg) (clientId : Str) (client : Option ClientRec)
    (dbResult : Except Str (List Row)) (now dur : Nat) : HandleOut :=
  match m.payload with
  | none =>
    -- property access on a missing payload throws; the handler's catch sends
    -- DATABASE_ERROR (unreachable behind validation)
    ⟨st, .error (lit ("DATABASE_ERROR")) (lit ("Database query failed: Unknown database error")) m.id, false⟩
  | some p =>
    let sql := p.sql.getD []
    let params := p.params.getD []
    let sqlValidation := validateSQL sql config.allowedQueryTypes
    if !sqlValidation.isValid then
      let entry : AuditEntry :=
        { timestamp := now, clientId := clientId,
          userId := client.map (fun c => c.user.id),
          action := lit ("query_validation_failed"), success := false,
          error := some (joinSep (lit (", ")) sqlValidation.errors) }
      let st := { st with auditLog := logAudit config st.auditLog entry }
      ⟨st, .error (lit ("SQL_VALIDATION_ERROR"))
             (joinSep (lit (", ")) sqlValidation.errors) m.id, false⟩
    else
      match client with
      | some c =>
        if !(isQueryAllowed c.user sql).allowed then
          let reason := (isQueryAllowed c.user sql).reason
          let entry : AuditEntry :=
            { timestamp := now, clientId := clientId, userId := some c.user.id,
              action := lit ("query_permission_denied"), success := false,
              error := reason }
          let st := { st with auditLog := logAudit config st.auditLog entry }
          ⟨st, .error (lit ("PERMISSION_DENIED"))
                 (reason.getD (lit ("Query not allowed"))) m.id, false⟩
        else
          queryExecute config st m clientId client dbResult now dur sql params
            sqlValidation.warnings
      | none =>
        queryExecute config st m clientId client dbResult now dur sql params
          sqlValidation.warnings
where
  /-- The execution tail of `handleQueryMessage` (shared by the authenticated
  and unauthenticated paths). -/
  queryExecute (config : SecurityConfig) (st : ServerState) (m : WsMsg)
      (clientId : Str) (client : Option ClientRec)
      (dbResult : Except Str (List Row)) (now dur : Nat)
      (sql : Str) (params : List Str) (warnings : List Str) : HandleOut :=
    match dbResult with
    | .ok rows =>
      let entry : AuditEntry :=
        { timestamp := now, clientId := clientId,
          userId := client.map (fun c => c.user.id),
          action := lit ("query_executed"), success := true }
      let st := { st with auditLog := logAudit config st.auditLog entry }
      ⟨st, .result (.queryResult sql params rows rows.length dur now warnings) m.id,
       true⟩
    | .error e =>
      let entry : AuditEntry :=
        { timestamp := now, clientId := clientId,
          userId := client.map (fun c => c.user.id),
          action := lit ("query_error"), success := false,
          error := some e }
      let st := { st with auditLog := logAudit config st.auditLog entry }
      ⟨st, .error (lit ("DATABASE_ERROR")) (lit ("Database query failed: ") ++ e) m.id,
       true⟩

/-- `SecureWebSocketServer.handleMessage`: the full dispatch pipeline for one
inbound frame. -/
def handleMessage (config : SecurityConfig) (st : ServerState) (inp : Inbound)
    (clientId clientIp : Str) (dbResult : Except Str (List Row)) (now dur : Nat) :
    HandleOut :=
  match inp with
  | .unparseable =>
    ⟨st, .error (lit ("PARSE_ERROR")) (lit ("Invalid message format")) none, false⟩
  | .msg m =>
    let errors := validateWebSocketMessage m
    if errors ≠ [] then
      ⟨st, .error (lit ("VALIDATION_ERROR")) (joinSep (lit (", ")) errors) m.id, false⟩
    else
      let (st, rateOk) := checkRateLimit config st clientId now
      if !rateOk then
        ⟨st, .error (lit ("RATE_LIMIT")) (lit ("Too many requests")) m.id, false⟩
      else if m.type = some (lit ("auth")) then
        handleAuthMessage config st m clientId clientIp now
      else
        let client := mapGet clientId st.authenticatedClients
        if config.requireAuth && client.isNone then
          ⟨st, .error (lit ("AUTH_REQUIRED")) (lit ("Authentication required")) m.id,
           false⟩
        else
          let (st, client) :=
            match client with
            | some c =>
              let c := { c with lastActivity := now, requestCount := c.requestCount + 1 }
              ({ st with authenticatedClients :=
                   mapSet clientId c st.authenticatedClients }, some c)
            | none => (st, none)
          if m.type = some (lit ("ping")) then
            ⟨st, .result (.pong now clientId) m.id, false⟩
          else if m.type = some (lit ("query")) then
            handleQueryMessage config st m clientId client dbResult now dur
          else
            ⟨st, .error (lit ("UNSUPPORTED_TYPE"))
                   (lit ("Unsupported message type: ") ++ (m.type.getD [])) m.id, false⟩

/-- A run of consecutive username/password authentication attempts from one
client address: fold `authenticateUser` over the attempt times. -/
def failAuthRun (config : AuthConfig) (username password clientIp : Str)
    (st : AuthState) (times : List Nat) : AuthState :=
  times.foldl (fun s t => (authenticateUser config s username password clientIp t).1) st

/-- The ASCII fragment on which the JSON serialization model is faithful to
`JSON.stringify`: character codes below 256 and none of the structural
characters of the serialized token payload. -/
def cleanChar (c : Char) : Bool :=
  decide (c.toNat < 256 ∧ c ≠ '"' ∧ c ≠ '.' ∧ c ≠ ',' ∧ c ≠ ']')

def cleanStr (s : Str) : Bool := s.all cleanChar

def cleanUser (u : User) : Bool :=
  cleanStr u.id && cleanStr u.username && cleanStr u.role && u.permissions.all cleanStr

/-! ## Audit-trail lemmas -/

theorem checkRateLimit_fst_auditLog (config : SecurityConfig) (st : ServerState)
    (clientId : Str) (now : Nat) :
    ((checkRateLimit config st clientId now).1).auditLog = st.auditLog := by
  rcases h : mapGet clientId st.authenticatedClients with _ | c <;>
    simp only [checkRateLimit, h]

theorem logAudit_append (config : SecurityConfig) (log : List AuditEntry)
    (e : AuditEntry) (henable : config.enableAuditLog = true)
    (hlen : log.length < 1000) :
    logAudit config log e = log ++ [e] := by
  simp only [logAudit, henable, Bool.not_true, Bool.false_eq_true, reduceIte]
  have h : ¬(log ++ [e]).length > 1000 := by
    simp only [List.length_append, List.length_cons, List.length_nil]
    omega
  rw [if_neg h]

theorem handleAuthMessage_audits (config : SecurityConfig) (st : ServerState)
    (m : WsMsg) (p : Payload) (clientId clientIp : Str) (now : Nat)
    (hp : m.payload = some p)
    (hcred : jsTruthy p.token = true ∨ jsTruthy p.apiKey = true ∨
      (jsTruthy p.username && jsTruthy p.password) = true) :
    ∃ e : AuditEntry, e.action = lit ("authentication") ∧
      (handleAuthMessage config st m clientId clientIp now).st.auditLog =
        logAudit config st.auditLog e := by
  have hguard : (!jsTruthy p.token && !jsTruthy p.apiKey &&
      !(jsTruthy p.username && jsTruthy p.password)) = false := by
    rcases hcred with h | h | h <;> simp [h]
  obtain ⟨sa, ar, hpair⟩ : ∃ sa ar,
      (if jsTruthy p.token then
        validateToken config.auth st.auth (p.token.getD []) now
      else if jsTruthy p.apiKey then
        (st.auth, authenticateApiKey config.auth (p.apiKey.getD []) now)
      else if jsTruthy p.username && jsTruthy p.password then
        authenticateUser config.auth st.auth (p.username.getD []) (p.password.getD [])
          clientIp now
      else
        (st.auth, { success := false })) = (sa, ar) := ⟨_, _, rfl⟩
  by_cases hsucc : ar.success = true
  · rcases hu : ar.user with _ | u
    · refine ⟨{ timestamp := now, clientId := clientId,
                action := lit ("authentication"), success := false,
                error := ar.error }, rfl, ?_⟩
      simp only [handleAuthMessage, hp, hpair, hguard, Bool.false_eq_true, reduceIte,
        hsucc, hu]
    · refine ⟨{ timestamp := now, clientId := clientId, userId := some u.id,
                action := lit ("authentication"), success := true }, rfl, ?_⟩
      simp only [handleAuthMessage, hp, hpair, hguard, Bool.false_eq_true, reduceIte,
        hsucc, hu]
  · rw [Bool.not_eq_true] at hsucc
    refine ⟨{ timestamp := now, clientId := clientId,
              action := lit ("authentication"), success := false,
              error := ar.error }, rfl, ?_⟩
    simp only [handleAuthMessage, hp, hpair, hguard, Bool.false_eq_true, reduceIte,
      hsucc]

theorem handleQueryMessage_audits (config : SecurityConfig) (st : ServerState)
    (m : WsMsg) (p : Payload) (clientId : Str) (client : Option ClientRec)
    (dbResult : Except Str (List Row)) (now dur : Nat)
    (hp : m.payload = some p) :
    ∃ e : AuditEntry,
      (handleQueryMessage config st m clientId client dbResult now dur).st.auditLog =
        logAudit config st.auditLog e := by
  by_cases hv : (validateSQL (p.sql.getD []) config.allowedQueryTypes).isValid = true
  · rcases client with _ | c
    · rcases dbResult with e0 | rows
      · refine ⟨{ timestamp := now, clientId := clientId,
                  userId := Option.map (fun c => c.user.id) (none : Option ClientRec),
                  action := lit ("query_error"), success := false,
                  error := some e0 }, ?_⟩
        simp only [handleQueryMessage, handleQueryMessage.queryExecute, hp, hv,
          Bool.not_true, Bool.false_eq_true, reduceIte]
      · refine ⟨{ timestamp := now, clientId := clientId,
                  userId := Option.map (fun c => c.user.id) (none : Option ClientRec),
                  action := lit ("query_executed"), success := true }, ?_⟩
        simp only [handleQueryMessage, handleQueryMessage.queryExecute, hp, hv,
          Bool.not_true, Bool.false_eq_true, reduceIte]
    · by_cases hall : (isQueryAllowed c.user (p.sql.getD [])).allowed = true
      · rcases dbResult with e0 | rows
        · refine ⟨{ timestamp := now, clientId := clientId,
                    userId := Option.map (fun c => c.user.id) (some c),
                    action := lit ("query_error"), success := false,
                    error := some e0 }, ?_⟩
          simp only [handleQueryMessage, handleQueryMessage.queryExecute, hp, hv,
            hall, Bool.not_true, Bool.false_eq_true, reduceIte]
        · refine ⟨{ timestamp := now, clientId := clientId,
                    userId := Option.map (fun c => c.user.id) (some c),
                    action := lit ("query_executed"), success := true }, ?_⟩
          simp only [handleQueryMessage, handleQueryMessage.queryExecute, hp, hv,
            hall, Bool.not_true, Bool.false_eq_true, reduceIte]
      · rw [Bool.not_eq_true] at hall
        refine ⟨{ timestamp := now, clientId := clientId, userId := some c.user.id,
                  action := lit ("query_permission_denied"), success := false,
                  error := (isQueryAllowed c.user (p.sql.getD [])).reason }, ?_⟩
        simp only [handleQueryMessage, hp, hv, hall, Bool.not_true, Bool.not_false,
          Bool.false_eq_true, reduceIte, if_true]
  · rw [Bool.not_eq_true] at hv
    refine ⟨{ timestamp := now, clientId := clientId,
              userId := Option.map (fun c => c.user.id) client,
              action := lit ("query_validation_failed"), success := false,
              error := some (joinSep (lit (", "))
                (validateSQL (p.sql.getD []) config.allowedQueryTypes).errors) }, ?_⟩
    simp only [handleQueryMessage, hp, hv, Bool.not_false, if_true]

/-! ## Map lemmas -/

theorem mapGet_mapSet_self {α : Type} (k : Str) (v : α) (m : List (Str × α)) :
    mapGet k (mapSet k v m) = some v := by
  induction m with
  | nil => simp [mapSet, mapGet]
  | cons hd tl ih =>
    obtain ⟨k2, v2⟩ := hd
    by_cases h : k2 = k
    · simp [mapSet, mapGet, h]
    · simp [mapSet, mapGet, h, ih]

theorem mapKeys_cons {α : Type} (k : Str) (v : α) (m : List (Str × α)) :
    mapKeys ((k, v) :: m) = k :: mapKeys m := rfl

theorem mapSet_append_of_not_mem {α : Type} (k : Str) (v : α) (m : List (Str × α))
    (h : k ∉ mapKeys m) : mapSet k v m = m ++ [(k, v)] := by
  induction m with
  | nil => simp [mapSet]
  | cons hd tl ih =>
    obtain ⟨k2, v2⟩ := hd
    rw [mapKeys_cons, List.mem_cons] at h
    push_neg at h
    simp [mapSet, Ne.symm h.1, ih h.2]

theorem mem_mapKeys_mapSet {α : Type} {k' k : Str} {v : α} {m : List (Str × α)}
    (h : k' ∈ mapKeys (mapSet k v m)) : k' = k ∨ k' ∈ mapKeys m := by
  induction m with
  | nil =>
    rw [show mapSet k v ([] : List (Str × α)) = [(k, v)] from rfl, mapKeys_cons,
      List.mem_cons] at h
    rcases h with h | h
    · exact Or.inl h
    · exact absurd h (by simp [mapKeys])
  | cons hd tl ih =>
    obtain ⟨k2, v2⟩ := hd
    by_cases hk : k2 = k
    · rw [show mapSet k v ((k2, v2) :: tl) = (k, v) :: tl from by simp [mapSet, hk],
        mapKeys_cons, List.mem_cons] at h
      rcases h with h | h
      · exact Or.inl h
      · exact Or.inr (by rw [mapKeys_cons, List.mem_cons]; exact Or.inr h)
    · rw [show mapSet k v ((k2, v2) :: tl) = (k2, v2) :: mapSet k v tl from by
        simp [mapSet, hk], mapKeys_cons, List.mem_cons] at h
      rcases h with h | h
      · exact Or.inr (by rw [mapKeys_cons, List.mem_cons]; exact Or.inl h)
      · rcases ih h with h | h
        · exact Or.inl h
        · exact Or.inr (by rw [mapKeys_cons, List.mem_cons]; exact Or.inr h)

theorem mem_mapKeys_mapDelete {α : Type} {k' k : Str} {m : List (Str × α)}
    (h : k' ∈ mapKeys (mapDelete k m)) : k' ∈ mapKeys m := by
  induction m with
  | nil => simpa [mapDelete] using h
  | cons hd tl ih =>
    obtain ⟨k2, v2⟩ := hd
    rw [mapKeys_cons, List.mem_cons]
    by_cases hk : k2 = k
    · rw [show mapDelete k ((k2, v2) :: tl) = tl from by simp [mapDelete, hk]] at h
      exact Or.inr h
    · rw [show mapDelete k ((k2, v2) :: tl) = (k2, v2) :: mapDelete k tl from by
        simp [mapDelete, hk], mapKeys_cons, List.mem_cons] at h
      rcases h with h | h
      · exact Or.inl h
      · exact Or.inr (ih h)

theorem length_mapSet_le {α : Type} (k : Str) (v : α) (m : List (Str × α)) :
    (mapSet k v m).length ≤ m.length + 1 := by
  induction m with
  | nil => simp [mapSet]
  | cons hd tl ih =>
    obtain ⟨k2, v2⟩ := hd
    by_cases h : k2 = k
    · simp [mapSet, h]
    · simp [mapSet, h]
      omega

/-! ## Claim C1 -/

theorem pattern_test_nil (p : SQLInjectionPattern) (hp : p ∈ SQL_INJECTION_PATTERNS) :
    p.test [] = false := by
  simp [SQL_INJECTION_PATTERNS] at hp
  rcases hp with rfl | rfl | rfl | rfl | rfl | rfl | rfl | rfl <;> decide

theorem validateSQL_isValid_eq (sql : Str) (ops : List Str) :
    (validateSQL sql ops).isValid = (validateSQL sql ops).errors.isEmpty := by
  by_cases h : sql = []
  · simp [validateSQL, h]
  · simp only [validateSQL, h, reduceIte]

theorem injection_error_mem (sql : Str) (ops : List Str) (p : SQLInjectionPattern)
    (hp : p ∈ SQL_INJECTION_PATTERNS) (ht : p.test sql = true) (hne : sql ≠ []) :
    (lit ("Potential SQL injection detected: ") ++ p.source) ∈
      (validateSQL sql ops).errors := by
  simp only [validateSQL, if_neg hne]
  simp only [List.mem_append]
  refine Or.inl (Or.inl (Or.inr ?_))
  exact List.mem_map.mpr ⟨p, List.mem_filter.mpr ⟨hp, ht⟩, rfl⟩

/-- C1: any SQL string matched by one of the validator's fixed injection
patterns is reported invalid, with a non-empty error list, whatever the
`allowedOperations` argument is. -/
theorem c1_injection_patterns_reject (sql : Str) (allowedOperations : List Str)
    (h : ∃ p ∈ SQL_INJECTION_PATTERNS, p.test sql = true) :
    (validateSQL sql allowedOperations).isValid = false ∧
    (validateSQL sql allowedOperations).errors ≠ [] := by
  obtain ⟨p, hp, ht⟩ := h
  have hne : sql ≠ [] := by
    intro h0
    rw [h0, pattern_test_nil p hp] at ht
    exact absurd ht (by simp)
  have hmem := injection_error_mem sql allowedOperations p hp ht hne
  have herr : (validateSQL sql allowedOperations).errors ≠ [] :=
    List.ne_nil_of_mem hmem
  refine ⟨?_, herr⟩
  rw [validateSQL_isValid_eq]
  simpa [List.isEmpty_iff] using herr

/-- C1 witness: the classic stacked-injection string is matched by the
stacked-query pattern and rejected. -/
theorem c1_injection_patterns_reject_witness :
    (∃ p ∈ SQL_INJECTION_PATTERNS,
        p.test (lit ("SELECT * FROM users; DROP TABLE users;--")) = true) ∧
    (validateSQL (lit ("SELECT * FROM users; DROP TABLE users;--"))
        [lit ("SELECT"), lit ("INSERT")]).isValid = false ∧
    (validateSQL (lit ("SELECT * FROM users; DROP TABLE users;--"))
        [lit ("SELECT"), lit ("INSERT")]).errors ≠ [] := by
  have hp : patStacked ∈ SQL_INJECTION_PATTERNS := by
    simp [SQL_INJECTION_PATTERNS]
  have ht : patStacked.test (lit ("SELECT * FROM users; DROP TABLE users;--")) = true := by
    decide
  exact ⟨⟨patStacked, hp, ht⟩,
    c1_injection_patterns_reject (lit ("SELECT * FROM users; DROP TABLE users;--"))
      [lit ("SELECT"), lit ("INSERT")] ⟨patStacked, hp, ht⟩⟩

/-! ## Claim C9 -/

theorem one_le_effMaxSize (config : DbConfig) : 1 ≤ effMaxSize config := by
  unfold effMaxSize
  split <;> omega

/-- C9: storing a fresh key into a cache holding `cacheMaxSize` entries (all
keys non-empty, as every generated cache key is) evicts exactly the earliest
surviving entry and then appends, so the size stays at the cap; and in
general a store never pushes the size above the cap. -/
theorem c9_eviction (config : DbConfig) (result : List Row) (now : Nat) :
    (∀ (cache : List (Str × QueryCacheEntry)) (cacheKey : Str),
       (∀ k ∈ mapKeys cache, k ≠ []) →
       cache.length = effMaxSize config →
       cacheKey ∉ mapKeys cache →
       setCachedResult config cache cacheKey result now =
         cache.tail ++ [(cacheKey, ⟨result, now, effTtl config⟩)] ∧
       (setCachedResult config cache cacheKey result now).length = effMaxSize config) ∧
    (∀ (cache : List (Str × QueryCacheEntry)) (cacheKey : Str),
       (∀ k ∈ mapKeys cache, k ≠ []) →
       cache.length ≤ effMaxSize config →
       (setCachedResult config cache cacheKey result now).length ≤ effMaxSize config) := by
  constructor
  · intro cache cacheKey hkeys hfull hnew
    cases cache with
    | nil =>
      exfalso
      have := one_le_effMaxSize config
      simp at hfull
      omega
    | cons hd tl =>
      obtain ⟨k0, e0⟩ := hd
      have hk0 : k0 ≠ [] := hkeys k0 (by rw [mapKeys_cons]; exact List.mem_cons_self _ _)
      have hge : ((k0, e0) :: tl).length ≥ effMaxSize config := le_of_eq hfull.symm
      have hdel : mapDelete k0 ((k0, e0) :: tl) = tl := by simp [mapDelete]
      have hnew' : cacheKey ∉ mapKeys tl := by
        rw [mapKeys_cons, List.mem_cons] at hnew
        push_neg at hnew
        exact hnew.2
      have hset := mapSet_append_of_not_mem cacheKey
        (⟨result, now, effTtl config⟩ : QueryCacheEntry) tl hnew'
      constructor
      · simp only [setCachedResult, if_pos hge, List.head?_cons, hk0, hdel, reduceIte,
          ne_eq, not_false_iff, if_true]
        simpa using hset
      · simp only [setCachedResult, if_pos hge, List.head?_cons, hk0, hdel, reduceIte,
          ne_eq, not_false_iff, if_true, hset]
        simp at hfull ⊢
        omega
  · intro cache cacheKey hkeys hle
    by_cases hge : cache.length ≥ effMaxSize config
    · have hfull : cache.length = effMaxSize config := le_antisymm hle hge
      cases cache with
      | nil =>
        exfalso
        have := one_le_effMaxSize config
        simp at hfull
        omega
      | cons hd tl =>
        obtain ⟨k0, e0⟩ := hd
        have hk0 : k0 ≠ [] :=
          hkeys k0 (by rw [mapKeys_cons]; exact List.mem_cons_self _ _)
        have hdel : mapDelete k0 ((k0, e0) :: tl) = tl := by simp [mapDelete]
        have hge' : ((k0, e0) :: tl).length ≥ effMaxSize config := le_of_eq hfull.symm
        simp only [setCachedResult, if_pos hge', List.head?_cons, hk0, hdel, reduceIte,
          ne_eq, not_false_iff, if_true]
        have := length_mapSet_le cacheKey
          (⟨result, now, effTtl config⟩ : QueryCacheEntry) tl
        simp at hfull
        omega
    · simp only [setCachedResult, if_neg hge]
      have := length_mapSet_le cacheKey
        (⟨result, now, effTtl config⟩ : QueryCacheEntry) cache
      omega

/-- C9 witness: a two-entry cache at its cap of two receives a third key; the
first-inserted entry is evicted and the size stays two. -/
theorem c9_eviction_witness :
    (∀ k ∈ mapKeys [(lit ("select 1:"), (⟨[], 0, 100⟩ : QueryCacheEntry)),
                    (lit ("select 2:"), (⟨[], 1, 100⟩ : QueryCacheEntry))], k ≠ []) ∧
    setCachedResult ⟨true, 2, 100⟩
        [(lit ("select 1:"), ⟨[], 0, 100⟩), (lit ("select 2:"), ⟨[], 1, 100⟩)]
        (lit ("select 3:")) [] 5 =
      [(lit ("select 2:"), ⟨[], 1, 100⟩), (lit ("select 3:"), ⟨[], 5, 100⟩)] := by
  refine ⟨by decide, ?_⟩
  have h := (c9_eviction ⟨true, 2, 100⟩ [] 5).1
    [(lit ("select 1:"), ⟨[], 0, 100⟩), (lit ("select 2:"), ⟨[], 1, 100⟩)]
    (lit ("select 3:")) (by decide) (by decide) (by decide)
  rw [h.1]
  rfl

/-! ## Claim C5 -/

theorem mem_keys_setCachedResult {config : DbConfig}
    {c : List (Str × QueryCacheEntry)} {key : Str} {rows : List Row} {now : Nat}
    {k : Str} (h : k ∈ mapKeys (setCachedResult config c key rows now)) :
    k = key ∨ k ∈ mapKeys c := by
  simp only [setCachedResult] at h
  rcases mem_mapKeys_mapSet h with h | h
  · exact Or.inl h
  · right
    split at h
    · split at h
      · split at h
        · exact mem_mapKeys_mapDelete h
        · exact h
      · exact h
    · exact h

theorem getCachedResult_fst_cases (c : List (Str × QueryCacheEntry)) (key : Str)
    (now : Nat) :
    (getCachedResult c key now).1 = c ∨
    (getCachedResult c key now).1 = mapDelete key c := by
  unfold getCachedResult
  cases mapGet key c with
  | none => exact Or.inl rfl
  | some entry =>
    by_cases h : now - entry.timestamp > entry.ttl <;> simp [h]

/-- C5: a statement not classified `SELECT` leaves the query cache untouched
and can never be answered from the cache; and any key present after a `query`
step was either present before or was stored by that step, which must then
have been a `SELECT`-classified execution under the step's own cache key. -/
theorem c5_cache_purity (config : DbConfig) (st : DbState) (sql : Str)
    (params : Option (List Str)) (driverResult : Except Str (List Row))
    (now dur : Nat) :
    (isSelectQuery sql = false →
      (queryStep config st sql params driverResult now dur).1.queryCache =
        st.queryCache ∧
      ∀ rows, (queryStep config st sql params driverResult now dur).2 ≠
        QueryOutcome.cacheHit rows) ∧
    (∀ k, k ∈ mapKeys (queryStep config st sql params driverResult now dur).1.queryCache →
      k ∈ mapKeys st.queryCache ∨
        (isSelectQuery sql = true ∧ k = generateCacheKey sql params)) := by
  constructor
  · intro hsel
    have hcond : (config.enableCache && isSelectQuery sql) = false := by
      simp [hsel]
    unfold queryStep
    rw [hcond]
    cases driverResult with
    | error e => simp [hcond]
    | ok rows => simp [hcond]
  · intro k hk
    by_cases hcond : (config.enableCache && isSelectQuery sql) = true
    · have hsel : isSelectQuery sql = true := by
        simp at hcond
        exact hcond.2
      rcases hcase : mapGet (generateCacheKey sql params) st.queryCache with _ | entry
      · -- key absent: miss on the unchanged cache
        have hgc : getCachedResult st.queryCache (generateCacheKey sql params) now =
            (st.queryCache, none) := by
          unfold getCachedResult
          rw [hcase]
        cases driverResult with
        | error e =>
          simp only [queryStep, hcond, reduceIte, hgc] at hk
          exact Or.inl hk
        | ok rows =>
          simp only [queryStep, hcond, reduceIte, hgc] at hk
          rcases mem_keys_setCachedResult hk with h | h
          · exact Or.inr ⟨hsel, h⟩
          · exact Or.inl h
      · by_cases hstale : now - entry.timestamp > entry.ttl
        · -- stale entry: deleted, then a miss
          have hgc : getCachedResult st.queryCache (generateCacheKey sql params) now =
              (mapDelete (generateCacheKey sql params) st.queryCache, none) := by
            unfold getCachedResult
            rw [hcase]
            simp [hstale]
          cases driverResult with
          | error e =>
            simp only [queryStep, hcond, reduceIte, hgc] at hk
            exact Or.inl (mem_mapKeys_mapDelete hk)
          | ok rows =>
            simp only [queryStep, hcond, reduceIte, hgc] at hk
            rcases mem_keys_setCachedResult hk with h | h
            · exact Or.inr ⟨hsel, h⟩
            · exact Or.inl (mem_mapKeys_mapDelete h)
        · -- fresh entry: cache hit, cache unchanged
          have hgc : getCachedResult st.queryCache (generateCacheKey sql params) now =
              (st.queryCache, some entry.result) := by
            unfold getCachedResult
            rw [hcase]
            simp [hstale]
          simp only [queryStep, hcond, reduceIte, hgc] at hk
          exact Or.inl hk
    · have hcond' : (config.enableCache && isSelectQuery sql) = false := by
        simpa using hcond
      cases driverResult with
      | error e =>
        simp only [queryStep, hcond', Bool.false_eq_true, reduceIte] at hk
        exact Or.inl hk
      | ok rows =>
        simp only [queryStep, hcond', Bool.false_eq_true, reduceIte] at hk
        exact Or.inl hk

/-- C5 witness: an UPDATE statement executed against a one-entry cache leaves
the cache exactly as it was and is not served from it. -/
theorem c5_cache_purity_witness :
    isSelectQuery (lit ("UPDATE t SET a = 1")) = false ∧
    (queryStep ⟨true, 2, 100⟩ ⟨[(lit ("select 1:"), ⟨[], 0, 100⟩)], initialMetrics⟩
        (lit ("UPDATE t SET a = 1")) none (.ok []) 5 1).1.queryCache =
      [(lit ("select 1:"), ⟨[], 0, 100⟩)] := by
  refine ⟨by decide, ?_⟩
  have h := (c5_cache_purity ⟨true, 2, 100⟩
    ⟨[(lit ("select 1:"), ⟨[], 0, 100⟩)], initialMetrics⟩
    (lit ("UPDATE t SET a = 1")) none (.ok []) 5 1).1 (by decide)
  exact h.1

/-! ## Claim C6 -/

theorem updatePerf_queryCount (m : PerformanceMetrics) (sql : Str) (dur now : Nat) :
    (updatePerformanceMetrics m sql dur now).queryCount = m.queryCount + 1 := by
  simp only [updatePerformanceMetrics, updateCacheHitRate]
  split <;> rfl

theorem updatePerf_cacheHits (m : PerformanceMetrics) (sql : Str) (dur now : Nat) :
    (updatePerformanceMetrics m sql dur now).cacheHits = m.cacheHits := by
  simp only [updatePerformanceMetrics, updateCacheHitRate]
  split <;> rfl

theorem mapGet_setCachedResult_self (config : DbConfig)
    (c : List (Str × QueryCacheEntry)) (key : Str) (rows : List Row) (now : Nat) :
    mapGet key (setCachedResult config c key rows now) =
      some ⟨rows, now, effTtl config⟩ := by
  simp only [setCachedResult]
  exact mapGet_mapSet_self key _ _

/-- C6: with caching enabled, a SELECT executed on a cache miss stores its
rows, and an identical `(sql, params)` call within the TTL window is served
from the cache: it returns the stored rows whatever the driver would have
answered, leaves the execution count unchanged, and bumps the cache-hit
counter by exactly one. -/
theorem c6_cache_hit (config : DbConfig) (st : DbState) (sql : Str)
    (params : Option (List Str)) (rows : List Row) (now1 dur1 now2 dur2 : Nat)
    (driverResult2 : Except Str (List Row))
    (hcache : config.enableCache = true)
    (hsel : isSelectQuery sql = true)
    (habsent : mapGet (generateCacheKey sql params) st.queryCache = none)
    (hfresh : now2 - now1 ≤ effTtl config) :
    (queryStep config st sql params (.ok rows) now1 dur1).2 =
      QueryOutcome.executed rows ∧
    (queryStep config st sql params (.ok rows) now1 dur1).1.metrics.queryCount =
      st.metrics.queryCount + 1 ∧
    (queryStep config st sql params (.ok rows) now1 dur1).1.metrics.cacheHits =
      st.metrics.cacheHits ∧
    (queryStep config (queryStep config st sql params (.ok rows) now1 dur1).1
        sql params driverResult2 now2 dur2).2 = QueryOutcome.cacheHit rows ∧
    (queryStep config (queryStep config st sql params (.ok rows) now1 dur1).1
        sql params driverResult2 now2 dur2).1.metrics.cacheHits =
      (queryStep config st sql params (.ok rows) now1 dur1).1.metrics.cacheHits + 1 ∧
    (queryStep config (queryStep config st sql params (.ok rows) now1 dur1).1
        sql params driverResult2 now2 dur2).1.metrics.queryCount =
      (queryStep config st sql params (.ok rows) now1 dur1).1.metrics.queryCount := by
  have hcond : (config.enableCache && isSelectQuery sql) = true := by
    simp [hcache, hsel]
  have hgc1 : getCachedResult st.queryCache (generateCacheKey sql params) now1 =
      (st.queryCache, none) := by
    unfold getCachedResult
    rw [habsent]
  have hstep1 : queryStep config st sql params (.ok rows) now1 dur1 =
      ({ queryCache :=
           setCachedResult config st.queryCache (generateCacheKey sql params) rows now1,
         metrics :=
           updatePerformanceMetrics
             { st.metrics with cacheMisses := st.metrics.cacheMisses + 1 }
             sql dur1 now1 },
       QueryOutcome.executed rows) := by
    simp only [queryStep, hcond, reduceIte, hgc1]
  have hnstale : ¬ (now2 - now1 > effTtl config) := by omega
  have hgc2 : getCachedResult
      (setCachedResult config st.queryCache (generateCacheKey sql params) rows now1)
      (generateCacheKey sql params) now2 =
      (setCachedResult config st.queryCache (generateCacheKey sql params) rows now1,
       some rows) := by
    unfold getCachedResult
    rw [mapGet_setCachedResult_self]
    simp [hnstale]
  have hstep2 : queryStep config (queryStep config st sql params (.ok rows) now1 dur1).1
      sql params driverResult2 now2 dur2 =
      ({ queryCache :=
           setCachedResult config st.queryCache (generateCacheKey sql params) rows now1,
         metrics := updateCacheHitRate
           { updatePerformanceMetrics
               { st.metrics with cacheMisses := st.metrics.cacheMisses + 1 }
               sql dur1 now1 with
             cacheHits :=
               (updatePerformanceMetrics
                 { st.metrics with cacheMisses := st.metrics.cacheMisses + 1 }
                 sql dur1 now1).cacheHits + 1 } },
       QueryOutcome.cacheHit rows) := by
    rw [hstep1]
    simp only [queryStep, hcond, reduceIte, hgc2]
  refine ⟨by rw [hstep1], ?_, ?_, by rw [hstep2], ?_, ?_⟩
  · rw [hstep1]
    exact updatePerf_queryCount _ sql dur1 now1
  · rw [hstep1]
    exact updatePerf_cacheHits _ sql dur1 now1
  · rw [hstep2, hstep1]
    rfl
  · rw [hstep2, hstep1]
    rfl

/-- C6 witness: `SELECT 1` executed at time 10, repeated at time 50 against a
driver that would fail, is served from the cache with one extra cache hit and
no second execution. -/
theorem c6_cache_hit_witness :
    mapGet (generateCacheKey (lit ("SELECT 1")) none) ([] : List (Str × QueryCacheEntry))
      = none ∧
    (queryStep ⟨true, 2, 100⟩
        (queryStep ⟨true, 2, 100⟩ ⟨[], initialMetrics⟩ (lit ("SELECT 1")) none
          (.ok [[(lit ("x"), lit ("1"))]]) 10 1).1
        (lit ("SELECT 1")) none (.error (lit ("down"))) 50 1).2 =
      QueryOutcome.cacheHit [[(lit ("x"), lit ("1"))]] := by
  refine ⟨by decide, ?_⟩
  have h := c6_cache_hit ⟨true, 2, 100⟩ ⟨[], initialMetrics⟩ (lit ("SELECT 1")) none
    [[(lit ("x"), lit ("1"))]] 10 1 50 1 (.error (lit ("down")))
    (by decide) (by decide) (by decide) (by decide)
  exact h.2.2.2.1

/-! ## Claim C2 -/

theorem jsIncludes_infix_iff (s sub : Str) : jsIncludes s sub = true ↔ sub <:+: s := by
  induction s with
  | nil =>
    simp [jsIncludes, List.isPrefixOf_iff_prefix]
  | cons c cs ih =>
    simp only [jsIncludes, Bool.or_eq_true, List.isPrefixOf_iff_prefix, ih,
      List.infix_cons_iff]

theorem infix_dropWhile_of_head {a : Char} {k l : Str} (ha : jsIsSpace a = false)
    (h : (a :: k) <:+: l) : (a :: k) <:+: l.dropWhile jsIsSpace := by
  induction l with
  | nil => simp at h
  | cons c cs ih =>
    rcases List.infix_cons_iff.mp h with hpre | hinf
    · obtain ⟨rfl, -⟩ := List.cons_prefix_cons.mp hpre
      rw [List.dropWhile_cons, if_neg (by simp [ha])]
      exact hpre.isInfix
    · rw [List.dropWhile_cons]
      by_cases hc : jsIsSpace c
      · rw [if_pos hc]
        exact ih hinf
      · rw [if_neg hc]
        exact List.infix_cons_iff.mpr (Or.inr hinf)

theorem jsTrim_infix_self (l : Str) : jsTrim l <:+: l := by
  have hA : l.dropWhile jsIsSpace <:+ l := List.dropWhile_suffix _
  have hB : (l.dropWhile jsIsSpace).reverse.dropWhile jsIsSpace <:+
      (l.dropWhile jsIsSpace).reverse := List.dropWhile_suffix _
  have hBr : jsTrim l <+: l.dropWhile jsIsSpace := by
    apply (@List.reverse_suffix _ (jsTrim l) (l.dropWhile jsIsSpace)).mp
    simp only [jsTrim, List.reverse_reverse]
    exact hB
  exact List.IsInfix.trans hBr.isInfix hA.isInfix

theorem infix_jsTrim_iff {k l : Str} (hk : k ≠ [])
    (hall : ∀ c ∈ k, jsIsSpace c = false) : k <:+: jsTrim l ↔ k <:+: l := by
  constructor
  · intro h
    exact h.trans (jsTrim_infix_self l)
  · intro h
    obtain ⟨a, k', rfl⟩ := List.exists_cons_of_ne_nil hk
    have h1 : (a :: k') <:+: l.dropWhile jsIsSpace :=
      infix_dropWhile_of_head (hall a (List.mem_cons_self _ _)) h
    have h2 : (a :: k').reverse <:+: (l.dropWhile jsIsSpace).reverse :=
      List.reverse_infix.mpr h1
    have hrev_ne : (a :: k').reverse ≠ [] := by simp
    obtain ⟨b, m, hbm⟩ := List.exists_cons_of_ne_nil hrev_ne
    have hb : jsIsSpace b = false := by
      refine hall b (List.mem_reverse.mp ?_)
      rw [hbm]
      exact List.mem_cons_self _ _
    rw [hbm] at h2
    have h3 : (b :: m) <:+: (l.dropWhile jsIsSpace).reverse.dropWhile jsIsSpace :=
      infix_dropWhile_of_head hb h2
    have h4 := List.reverse_infix.mpr h3
    rw [← hbm, List.reverse_reverse] at h4
    exact h4

theorem isQueryAllowed_readonly (u : User) (sql : Str)
    (hrole : u.role = lit ("readonly")) :
    isQueryAllowed u sql =
      if jsStartsWith (jsTrim (jsToLower sql)) (lit ("select")) then
        { allowed := true, reason := none }
      else
        { allowed := false,
          reason := some (lit ("Readonly users can only execute SELECT queries")) } := by
  have h1 : ¬lit ("readonly") = lit ("admin") := by decide
  by_cases hs : jsStartsWith (jsTrim (jsToLower sql)) (lit ("select")) = true
  · simp [isQueryAllowed, hrole, hs, h1]
  · simp only [Bool.not_eq_true] at hs
    simp [isQueryAllowed, hrole, hs, h1]

theorem isQueryAllowed_user_role (u : User) (sql : Str)
    (hrole : u.role = lit ("user")) :
    isQueryAllowed u sql =
      if [lit ("drop"), lit ("delete"), lit ("truncate"), lit ("alter")].any
          (fun keyword => jsIncludes (jsTrim (jsToLower sql)) keyword) then
        { allowed := false,
          reason := some
            (lit ("Users cannot execute destructive operations (DROP, DELETE, TRUNCATE, ALTER)")) }
      else { allowed := true, reason := none } := by
  have h1 : ¬lit ("user") = lit ("admin") := by decide
  have h2 : ¬lit ("user") = lit ("readonly") := by decide
  simp [isQueryAllowed, hrole, h1, h2]

/-- C2: the role policy of `isQueryAllowed`: an admin is always allowed; a
readonly user is allowed exactly when the trimmed lower-cased statement starts
with `select`, with a reason reported on denial; a `user`-role user is denied
exactly when the lower-cased statement contains one of the substrings `drop`,
`delete`, `truncate`, `alter`, with a reason reported on denial. -/
theorem c2_role_policy (u : User) (sql : Str) :
    (u.role = lit ("admin") → (isQueryAllowed u sql).allowed = true) ∧
    (u.role = lit ("readonly") →
      ((isQueryAllowed u sql).allowed = true ↔
        jsStartsWith (jsTrim (jsToLower sql)) (lit ("select")) = true) ∧
      ((isQueryAllowed u sql).allowed = false → (isQueryAllowed u sql).reason ≠ none)) ∧
    (u.role = lit ("user") →
      ((isQueryAllowed u sql).allowed = false ↔
        ∃ k ∈ [lit ("drop"), lit ("delete"), lit ("truncate"), lit ("alter")],
          k <:+: jsToLower sql) ∧
      ((isQueryAllowed u sql).allowed = false → (isQueryAllowed u sql).reason ≠ none)) := by
  refine ⟨fun hrole => ?_, fun hrole => ?_, fun hrole => ?_⟩
  · simp [isQueryAllowed, hrole]
  · rw [isQueryAllowed_readonly u sql hrole]
    by_cases hs : jsStartsWith (jsTrim (jsToLower sql)) (lit ("select")) = true
    · simp [hs]
    · simp at hs
      simp [hs]
  · rw [isQueryAllowed_user_role u sql hrole]
    have hkeys : ∀ k ∈ [lit ("drop"), lit ("delete"), lit ("truncate"), lit ("alter")],
        k ≠ [] ∧ ∀ c ∈ k, jsIsSpace c = false := by decide
    have hany : ([lit ("drop"), lit ("delete"), lit ("truncate"), lit ("alter")].any
        (fun keyword => jsIncludes (jsTrim (jsToLower sql)) keyword) = true) ↔
        (∃ k ∈ [lit ("drop"), lit ("delete"), lit ("truncate"), lit ("alter")],
          k <:+: jsToLower sql) := by
      rw [List.any_eq_true]
      constructor
      · rintro ⟨k, hkmem, hkinc⟩
        exact ⟨k, hkmem, (infix_jsTrim_iff (hkeys k hkmem).1 (hkeys k hkmem).2).mp
          ((jsIncludes_infix_iff _ _).mp hkinc)⟩
      · rintro ⟨k, hkmem, hkinf⟩
        exact ⟨k, hkmem, (jsIncludes_infix_iff _ _).mpr
          ((infix_jsTrim_iff (hkeys k hkmem).1 (hkeys k hkmem).2).mpr hkinf)⟩
    by_cases hd : [lit ("drop"), lit ("delete"), lit ("truncate"), lit ("alter")].any
        (fun keyword => jsIncludes (jsTrim (jsToLower sql)) keyword) = true
    · simp only [if_pos hd]
      refine ⟨⟨fun _ => hany.mp hd, fun _ => by trivial⟩, fun _ => by simp⟩
    · simp only [if_neg hd]
      refine ⟨⟨fun hfalse => ?_, fun hex => absurd (hany.mpr hex) hd⟩, fun hfalse => ?_⟩
      · simp at hfalse
      · simp at hfalse

/-- C2 witness: the default readonly user is denied an INSERT with a reason,
and the default `user`-role user is denied a statement containing `drop`. -/
theorem c2_role_policy_witness :
    (isQueryAllowed ⟨lit ("readonly-001"), lit ("readonly"), lit ("readonly"),
        [lit ("read")], 0, none⟩ (lit ("INSERT INTO t (a) VALUES (1)"))).allowed
      = false ∧
    (isQueryAllowed ⟨lit ("user-001"), lit ("user"), lit ("user"),
        [lit ("read")], 0, none⟩ (lit ("DROP TABLE users"))).allowed = false := by
  constructor
  · have h := (c2_role_policy ⟨lit ("readonly-001"), lit ("readonly"), lit ("readonly"),
        [lit ("read")], 0, none⟩ (lit ("INSERT INTO t (a) VALUES (1)"))).2.1 rfl
    rcases hb : (isQueryAllowed ⟨lit ("readonly-001"), lit ("readonly"), lit ("readonly"),
        [lit ("read")], 0, none⟩ (lit ("INSERT INTO t (a) VALUES (1)"))).allowed
    · rfl
    · exfalso
      have := h.1.mp (by rw [hb])
      revert this
      decide
  · have h := (c2_role_policy ⟨lit ("user-001"), lit ("user"), lit ("user"),
        [lit ("read")], 0, none⟩ (lit ("DROP TABLE users"))).2.2 rfl
    refine h.1.mpr ⟨lit ("drop"), by decide, ?_⟩
    show lit ("drop") <:+: jsToLower (lit ("DROP TABLE users"))
    refine ⟨[], lit (" table users"), by decide⟩

/-! ## Claim C8 -/

/-- C8 counterexample: a successful API-key authentication returns a success
envelope whose `token` field is empty and records no session, contradicting
the claim that a signed Session Token is returned as for username/password
success. -/
theorem c8_apikey_counterexample :
    (authenticateApiKey ⟨lit ("secret"), [lit ("key1")], 1000, 3, 5000⟩
        (lit ("key1")) 0).success = true ∧
    (authenticateApiKey ⟨lit ("secret"), [lit ("key1")], 1000, 3, 5000⟩
        (lit ("key1")) 0).token = none ∧
    (handleAuthMessage
        ⟨⟨lit ("secret"), [lit ("key1")], 1000, 3, 5000⟩, true, 60, [lit ("SELECT")], true⟩
        ⟨[], [], initialAuthState⟩
        { type := some (lit ("auth")),
          payload := some { apiKey := some (lit ("key1")) },
          id := some (lit ("7")), size := 40 }
        (lit ("c1")) (lit ("ip")) 3).out =
      OutMsg.result (.authSuccess (lit ("service-001")) (lit ("service")) (lit ("user"))
        [lit ("read"), lit ("write")] none) (some (lit ("7"))) ∧
    (handleAuthMessage
        ⟨⟨lit ("secret"), [lit ("key1")], 1000, 3, 5000⟩, true, 60, [lit ("SELECT")], true⟩
        ⟨[], [], initialAuthState⟩
        { type := some (lit ("auth")),
          payload := some { apiKey := some (lit ("key1")) },
          id := some (lit ("7")), size := 40 }
        (lit ("c1")) (lit ("ip")) 3).st.auth.sessions = [] := by
  refine ⟨by decide, by decide, by decide, by decide⟩

/-- C8 amended: on every successful API-key authentication the client is
registered as the fixed service identity and a success envelope is sent, but
no Session Token is constructed, signed or returned: the success payload's
token field is empty and the session store is unchanged (tokens are issued
only by username/password authentication). -/
theorem c8_apikey_amended (config : SecurityConfig) (st : ServerState) (m : WsMsg)
    (p : Payload) (clientId clientIp : Str) (now : Nat)
    (hp : m.payload = some p)
    (htok : jsTruthy p.token = false)
    (hkey : jsTruthy p.apiKey = true)
    (hallow : (p.apiKey.getD []) ∈ config.auth.apiKeys) :
    (handleAuthMessage config st m clientId clientIp now).out =
      OutMsg.result (.authSuccess (lit ("service-001")) (lit ("service")) (lit ("user"))
        [lit ("read"), lit ("write")] none) m.id ∧
    (handleAuthMessage config st m clientId clientIp now).st.auth.sessions =
      st.auth.sessions ∧
    mapGet clientId
        ((handleAuthMessage config st m clientId clientIp now).st.authenticatedClients) =
      some { user := { id := lit ("service-001"), username := lit ("service"),
                       role := lit ("user"),
                       permissions := [lit ("read"), lit ("write")],
                       createdAt := now, lastLogin := none },
             clientId := clientId, connectedAt := now, lastActivity := now,
             requestCount := 0 } := by
  have hany : config.auth.apiKeys.any (fun k => k = p.apiKey.getD []) = true :=
    List.any_eq_true.mpr ⟨_, hallow, by simp⟩
  have hauth : authenticateApiKey config.auth (p.apiKey.getD []) now =
      { success := true,
        user := some { id := lit ("service-001"), username := lit ("service"),
                       role := lit ("user"),
                       permissions := [lit ("read"), lit ("write")],
                       createdAt := now, lastLogin := none } } := by
    simp [authenticateApiKey, hany]
  refine ⟨?_, ?_, ?_⟩ <;>
    simp only [handleAuthMessage, hp, htok, hkey, hauth, Bool.false_eq_true, reduceIte,
      Bool.not_false, Bool.not_true, Bool.false_and, Bool.and_self, Bool.true_and,
      mapGet_mapSet_self]

/-- C8 witness for the amended claim, at a concrete configured API key. -/
theorem c8_apikey_amended_witness :
    (handleAuthMessage
        ⟨⟨lit ("s"), [lit ("k2")], 50, 3, 100⟩, false, 10, [lit ("SELECT")], false⟩
        ⟨[], [], initialAuthState⟩
        { type := some (lit ("auth")),
          payload := some { apiKey := some (lit ("k2")) }, id := none, size := 10 }
        (lit ("c2")) (lit ("ip")) 5).out =
      OutMsg.result (.authSuccess (lit ("service-001")) (lit ("service")) (lit ("user"))
        [lit ("read"), lit ("write")] none) none :=
  (c8_apikey_amended
    ⟨⟨lit ("s"), [lit ("k2")], 50, 3, 100⟩, false, 10, [lit ("SELECT")], false⟩
    ⟨[], [], initialAuthState⟩
    { type := some (lit ("auth")),
      payload := some { apiKey := some (lit ("k2")) }, id := none, size := 10 }
    { apiKey := some (lit ("k2")) } (lit ("c2")) (lit ("ip")) 5
    rfl (by decide) (by decide) (by decide)).1

/-! ## Claim C10 -/

/-- C10 counterexample: with authentication disabled and the default
`allowedQueryTypes = [SELECT]`, an anonymous client's INSERT is rejected with
`SQL_VALIDATION_ERROR`, not `PERMISSION_DENIED` as the claim states (the
validator's allowed-kind check fires before the role check). -/
theorem c10_anonymous_counterexample :
    (handleMessage
        ⟨⟨lit ("secret"), [], 1000, 3, 5000⟩, false, 60, [lit ("SELECT")], true⟩
        ((handleConnection
          ⟨⟨lit ("secret"), [], 1000, 3, 5000⟩, false, 60, [lit ("SELECT")], true⟩
          ⟨[], [], initialAuthState⟩ (lit ("c1")) 0).1)
        (.msg { type := some (lit ("query")),
                payload := some { sql := some (lit ("INSERT INTO t (a) VALUES (1)")) },
                id := some (lit ("2")), size := 50 })
        (lit ("c1")) (lit ("ip")) (.ok []) 5 1).out =
      OutMsg.error (lit ("SQL_VALIDATION_ERROR"))
        (lit ("Query type \x27INSERT\x27 is not allowed. Allowed operations: SELECT"))
        (some (lit ("2"))) ∧
    lit ("SQL_VALIDATION_ERROR")  ≠ lit ("PERMISSION_DENIED") := by
  refine ⟨by decide, by decide⟩

theorem handleQuery_nonselect (config : SecurityConfig) (st2 : ServerState)
    (m : WsMsg) (p : Payload) (clientId : Str) (c2 : ClientRec)
    (dbResult : Except Str (List Row)) (now dur : Nat)
    (hpayload : m.payload = some p)
    (hrole : c2.user.role = lit ("readonly"))
    (hsql : jsStartsWith (jsTrim (jsToLower (p.sql.getD []))) (lit ("select")) = false) :
    (handleQueryMessage config st2 m clientId (some c2) dbResult now dur).dbCalled
        = false ∧
    (∃ code msg,
      (handleQueryMessage config st2 m clientId (some c2) dbResult now dur).out =
        OutMsg.error code msg m.id ∧
      (code = lit ("SQL_VALIDATION_ERROR") ∨ code = lit ("PERMISSION_DENIED"))) ∧
    ((validateSQL (p.sql.getD []) config.allowedQueryTypes).isValid = true →
      ∃ msg,
        (handleQueryMessage config st2 m clientId (some c2) dbResult now dur).out =
          OutMsg.error (lit ("PERMISSION_DENIED")) msg m.id) := by
  have hqa : isQueryAllowed c2.user (p.sql.getD []) =
      { allowed := false,
        reason := some (lit ("Readonly users can only execute SELECT queries")) } := by
    rw [isQueryAllowed_readonly c2.user _ hrole]
    simp [hsql]
  by_cases hv : (validateSQL (p.sql.getD []) config.allowedQueryTypes).isValid = true
  · refine ⟨?_, ⟨lit ("PERMISSION_DENIED"),
      lit ("Readonly users can only execute SELECT queries"), ?_, Or.inr rfl⟩,
      fun _ => ⟨lit ("Readonly users can only execute SELECT queries"), ?_⟩⟩ <;>
      simp only [handleQueryMessage, hpayload, hv, hqa, Bool.not_true, Bool.not_false,
        Bool.false_eq_true, reduceIte, Option.getD_some]
  · have hv' : (validateSQL (p.sql.getD []) config.allowedQueryTypes).isValid = false := by
      simpa using hv
    refine ⟨?_, ⟨lit ("SQL_VALIDATION_ERROR"),
      joinSep (lit (", ")) (validateSQL (p.sql.getD []) config.allowedQueryTypes).errors,
      ?_, Or.inl rfl⟩, fun hcontr => absurd hcontr (by simp [hv'])⟩ <;>
      simp only [handleQueryMessage, hpayload, hv', Bool.not_false, reduceIte]

/-- C10 amended: with `requireAuth = false` every accepted connection is
immediately registered under the fixed anonymous readonly identity; and any
query message whose trimmed lower-cased SQL does not start with `select`,
handled on behalf of a readonly client, is never passed to the database
driver and is answered with an error — `PERMISSION_DENIED` when the SQL
passes validation and the request throttle admits it, and
`SQL_VALIDATION_ERROR` or `RATE_LIMIT` otherwise. -/
theorem c10_anonymous_amended (config : SecurityConfig) (st : ServerState)
    (m : WsMsg) (p : Payload) (clientId clientIp : Str)
    (dbResult : Except Str (List Row)) (now dur : Nat) (c : ClientRec) :
    (config.requireAuth = false →
      mapGet clientId ((handleConnection config st clientId now).1.authenticatedClients) =
        some { user := anonymousUser now, clientId := clientId, connectedAt := now,
               lastActivity := now, requestCount := 0 }) ∧
    (config.requireAuth = false →
     validateWebSocketMessage m = [] →
     m.type = some (lit ("query")) →
     m.payload = some p →
     mapGet clientId st.authenticatedClients = some c →
     c.user.role = lit ("readonly") →
     jsStartsWith (jsTrim (jsToLower (p.sql.getD []))) (lit ("select")) = false →
      (handleMessage config st (.msg m) clientId clientIp dbResult now dur).dbCalled
          = false ∧
      (∃ code msg,
        (handleMessage config st (.msg m) clientId clientIp dbResult now dur).out =
          OutMsg.error code msg m.id ∧
        (code = lit ("RATE_LIMIT") ∨ code = lit ("SQL_VALIDATION_ERROR") ∨
         code = lit ("PERMISSION_DENIED"))) ∧
      ((checkRateLimit config st clientId now).2 = true →
       (validateSQL (p.sql.getD []) config.allowedQueryTypes).isValid = true →
       ∃ msg,
        (handleMessage config st (.msg m) clientId clientIp dbResult now dur).out =
          OutMsg.error (lit ("PERMISSION_DENIED")) msg m.id)) := by
  constructor
  · intro hreq
    simp only [handleConnection, hreq, Bool.not_false, reduceIte, mapGet_mapSet_self]
  · intro hreq hvalid htype hpayload hclient hrole hsql
    -- the throttled client record after checkRateLimit preserves user and lookup
    have hrl : checkRateLimit config st clientId now =
        ({ st with
            authenticatedClients :=
              mapSet clientId
                (if c.lastActivity < now - 60000 then { c with requestCount := 0 } else c)
                st.authenticatedClients },
         decide ((if c.lastActivity < now - 60000 then { c with requestCount := 0 }
          else c).requestCount < config.maxRequestsPerMinute)) := by
      simp only [checkRateLimit, hclient]
    have huser : (if c.lastActivity < now - 60000 then { c with requestCount := 0 }
        else c).user = c.user := by
      split <;> rfl
    by_cases hrok : (if c.lastActivity < now - 60000 then { c with requestCount := 0 }
        else c).requestCount < config.maxRequestsPerMinute
    · -- request admitted: the query handler rejects without touching the driver
      obtain ⟨c1, hc1⟩ : ∃ c1 : ClientRec,
          c1 = if c.lastActivity < now - 60000 then { c with requestCount := 0 } else c :=
        ⟨_, rfl⟩
      rw [← hc1] at hrl hrok huser
      have hmain : handleMessage config st (.msg m) clientId clientIp dbResult now dur =
          handleQueryMessage config
            { st with
                authenticatedClients :=
                  mapSet clientId
                    { c1 with lastActivity := now, requestCount := c1.requestCount + 1 }
                    (mapSet clientId c1 st.authenticatedClients) }
            m clientId
            (some { c1 with lastActivity := now, requestCount := c1.requestCount + 1 })
            dbResult now dur := by
        have hne1 : ¬(some (lit ("query")) = some (lit ("auth"))) := by decide
        have hne2 : ¬(some (lit ("query")) = some (lit ("ping"))) := by decide
        simp only [handleMessage, hvalid, ne_eq, not_true_eq_false, Bool.false_eq_true,
          reduceIte, hrl, hrok, decide_True, Bool.not_true, htype, hreq,
          mapGet_mapSet_self, Bool.false_and, Option.isNone_some, hne1, hne2,
          eq_self_iff_true, if_true, if_false]
      have hq := handleQuery_nonselect config
        { st with
            authenticatedClients :=
              mapSet clientId
                { c1 with lastActivity := now, requestCount := c1.requestCount + 1 }
                (mapSet clientId c1 st.authenticatedClients) }
        m p clientId
        { c1 with lastActivity := now, requestCount := c1.requestCount + 1 }
        dbResult now dur hpayload (by simpa [huser] using hrole) hsql
      refine ⟨by rw [hmain]; exact hq.1, ?_, ?_⟩
      · obtain ⟨code, msg, hout, hcode⟩ := hq.2.1
        refine ⟨code, msg, by rw [hmain]; exact hout, ?_⟩
        rcases hcode with h | h
        · exact Or.inr (Or.inl h)
        · exact Or.inr (Or.inr h)
      · intro _ hvsql
        obtain ⟨msg, hout⟩ := hq.2.2 hvsql
        exact ⟨msg, by rw [hmain]; exact hout⟩
    · -- request throttled: RATE_LIMIT, driver untouched
      have hmain : handleMessage config st (.msg m) clientId clientIp dbResult now dur =
          ⟨({ st with
              authenticatedClients :=
                mapSet clientId
                  (if c.lastActivity < now - 60000 then { c with requestCount := 0 } else c)
                  st.authenticatedClients }),
           .error (lit ("RATE_LIMIT")) (lit ("Too many requests")) m.id, false⟩ := by
        simp only [handleMessage, hvalid, ne_eq, not_true_eq_false, Bool.false_eq_true,
          reduceIte, hrl, hrok, decide_False, Bool.not_false, eq_self_iff_true, if_true,
          if_false]
      refine ⟨by rw [hmain], ⟨lit ("RATE_LIMIT"), lit ("Too many requests"),
        by rw [hmain], Or.inl rfl⟩, fun hcontr _ => ?_⟩
      rw [hrl] at hcontr
      simp at hcontr
      exact absurd hcontr hrok

/-- C10 witness for the amended claim: the anonymous readonly client's INSERT
(of an allowed kind, so SQL validation passes) is rejected with
`PERMISSION_DENIED` and the driver is never invoked. -/
theorem c10_anonymous_amended_witness :
    (handleMessage
        ⟨⟨lit ("secret"), [], 1000, 3, 5000⟩, false, 60,
          [lit ("SELECT"), lit ("INSERT")], true⟩
        ⟨[(lit ("c1"), (⟨anonymousUser 0, lit ("c1"), 0, 0, 0⟩ : ClientRec))], [],
          initialAuthState⟩
        (.msg { type := some (lit ("query")),
                payload := some { sql := some (lit ("INSERT INTO t (a) VALUES (1)")) },
                id := some (lit ("2")), size := 50 })
        (lit ("c1")) (lit ("ip")) (.ok []) 5 1).dbCalled = false ∧
    (∃ msg,
      (handleMessage
          ⟨⟨lit ("secret"), [], 1000, 3, 5000⟩, false, 60,
            [lit ("SELECT"), lit ("INSERT")], true⟩
          ⟨[(lit ("c1"), (⟨anonymousUser 0, lit ("c1"), 0, 0, 0⟩ : ClientRec))], [],
            initialAuthState⟩
          (.msg { type := some (lit ("query")),
                  payload := some { sql := some (lit ("INSERT INTO t (a) VALUES (1)")) },
                  id := some (lit ("2")), size := 50 })
          (lit ("c1")) (lit ("ip")) (.ok []) 5 1).out =
        OutMsg.error (lit ("PERMISSION_DENIED")) msg (some (lit ("2")))) := by
  have h := (c10_anonymous_amended
    ⟨⟨lit ("secret"), [], 1000, 3, 5000⟩, false, 60,
      [lit ("SELECT"), lit ("INSERT")], true⟩
    ⟨[(lit ("c1"), (⟨anonymousUser 0, lit ("c1"), 0, 0, 0⟩ : ClientRec))], [],
      initialAuthState⟩
    { type := some (lit ("query")),
      payload := some { sql := some (lit ("INSERT INTO t (a) VALUES (1)")) },
      id := some (lit ("2")), size := 50 }
    { sql := some (lit ("INSERT INTO t (a) VALUES (1)")) }
    (lit ("c1")) (lit ("ip")) (.ok []) 5 1
    (⟨anonymousUser 0, lit ("c1"), 0, 0, 0⟩ : ClientRec)).2
    rfl (by decide) rfl rfl (by decide) rfl (by decide)
  exact ⟨h.1, h.2.2 (by decide) (by decide)⟩

/-! ## Claim C4 -/

theorem authenticateUser_bad_creds (config : AuthConfig) (st : AuthState)
    (username password clientIp : Str) (now : Nat)
    (hirl : isRateLimited config st clientIp now = false)
    (hbad : validateCredentials username password = false) :
    authenticateUser config st username password clientIp now =
      (recordFailedAttempt config st clientIp now,
       { success := false, error := some (lit ("Invalid username or password")) }) := by
  simp only [authenticateUser, hirl, Bool.false_eq_true, reduceIte, hbad,
    Bool.not_false, if_true]

theorem failAuthRun_snoc_record (config : AuthConfig) (username password clientIp : Str)
    (st : AuthState)
    (hbad : validateCredentials username password = false)
    (hstart : mapGet clientIp st.rateLimits = none) :
    ∀ (ts : List Nat) (t : Nat), ts.length + 1 ≤ config.maxFailedAttempts →
      mapGet clientIp
          (failAuthRun config username password clientIp st (ts ++ [t])).rateLimits =
        some ⟨ts.length + 1, t,
          if config.maxFailedAttempts ≤ ts.length + 1 then
            some (t + config.lockoutDuration)
          else none⟩ ∧
      (failAuthRun config username password clientIp st (ts ++ [t])).users = st.users := by
  intro ts
  induction ts using List.reverseRecOn with
  | nil =>
    intro t hlen
    have hirl : isRateLimited config st clientIp t = false := by
      simp [isRateLimited, hstart]
    constructor
    · simp only [failAuthRun, List.foldl_nil, List.nil_append, List.foldl_cons,
        authenticateUser, hirl, Bool.false_eq_true, reduceIte, hbad, Bool.not_false,
        if_true, recordFailedAttempt, hstart, Option.getD_none, mapGet_mapSet_self,
        List.length_nil]
    · simp only [failAuthRun, List.foldl_nil, List.nil_append, List.foldl_cons,
        authenticateUser, hirl, Bool.false_eq_true, reduceIte, hbad, Bool.not_false,
        if_true, recordFailedAttempt]
  | append_singleton ts t' ih =>
    intro t hlen
    have hlen' : ts.length + 1 ≤ config.maxFailedAttempts := by
      simp at hlen
      omega
    obtain ⟨hrec, husers⟩ := ih t' hlen'
    have hnotfull : ¬config.maxFailedAttempts ≤ ts.length + 1 := by
      simp at hlen
      omega
    rw [if_neg hnotfull] at hrec
    have hirl : isRateLimited config
        (failAuthRun config username password clientIp st (ts ++ [t'])) clientIp t
          = false := by
      simp only [isRateLimited, hrec]
      simp [hnotfull]
    have hstep : failAuthRun config username password clientIp st ((ts ++ [t']) ++ [t]) =
        (authenticateUser config
          (failAuthRun config username password clientIp st (ts ++ [t']))
          username password clientIp t).1 := by
      simp only [failAuthRun, List.foldl_append, List.foldl_cons, List.foldl_nil]
    rw [hstep, authenticateUser_bad_creds config _ username password clientIp t hirl hbad]
    constructor
    · simp only [recordFailedAttempt, hrec, Option.getD_some, mapGet_mapSet_self,
        List.length_append, List.length_cons, List.length_nil]
    · simp only [recordFailedAttempt]
      exact husers

/-- C4 counterexample: after three failed attempts (`maxFailedAttempts = 3`)
from one address, an attempt with the correct admin credentials is rejected,
but the error envelope's code is `AUTH_ERROR` — not `RATE_LIMIT` as the claim
states. -/
theorem c4_lockout_counterexample :
    (handleAuthMessage
        ⟨⟨lit ("secret"), [], 1000, 3, 5000⟩, true, 60, [lit ("SELECT")], true⟩
        ⟨[], [], failAuthRun ⟨lit ("secret"), [], 1000, 3, 5000⟩ (lit ("admin"))
          (lit ("bad")) (lit ("ip")) initialAuthState [0, 1, 2]⟩
        { type := some (lit ("auth")),
          payload := some { username := some (lit ("admin")),
                            password := some (lit ("admin123")) },
          id := some (lit ("9")), size := 60 }
        (lit ("c1")) (lit ("ip")) 3).out =
      OutMsg.error (lit ("AUTH_ERROR"))
        (lit ("Too many failed attempts. Please try again later.")) (some (lit ("9"))) ∧
    lit ("AUTH_ERROR") ≠ lit ("RATE_LIMIT") ∧
    validateCredentials (lit ("admin")) (lit ("admin123")) = true := by
  refine ⟨by decide, by decide, by decide⟩

/-- C4 amended: after `maxFailedAttempts` consecutive failed authentication
attempts from one address the address is locked until the last failure plus
`lockoutDuration`; while locked, an authentication attempt from that address
is rejected even with correct credentials, with an error envelope whose code
is `AUTH_ERROR` (not `RATE_LIMIT`) carrying the lockout message; and once
`lockoutDuration` has elapsed since the last failure, correct credentials for
a registered user succeed again. -/
theorem c4_lockout_amended (config : SecurityConfig) :
    (∀ (username password clientIp : Str) (st : AuthState) (ts : List Nat) (t : Nat),
       validateCredentials username password = false →
       mapGet clientIp st.rateLimits = none →
       ts.length + 1 = config.auth.maxFailedAttempts →
       mapGet clientIp
           (failAuthRun config.auth username password clientIp st (ts ++ [t])).rateLimits =
         some ⟨config.auth.maxFailedAttempts, t, some (t + config.auth.lockoutDuration)⟩) ∧
    (∀ (st : ServerState) (m : WsMsg) (p : Payload) (clientId clientIp : Str)
       (now k tl lu : Nat),
       m.payload = some p →
       jsTruthy p.token = false →
       jsTruthy p.apiKey = false →
       jsTruthy p.username = true →
       jsTruthy p.password = true →
       mapGet clientIp st.auth.rateLimits = some ⟨k, tl, some lu⟩ →
       now < lu →
       (handleAuthMessage config st m clientId clientIp now).out =
         OutMsg.error (lit ("AUTH_ERROR"))
           (lit ("Too many failed attempts. Please try again later.")) m.id) ∧
    (∀ (st : ServerState) (m : WsMsg) (p : Payload) (clientId clientIp un pw : Str)
       (now k tl : Nat) (u : User),
       m.payload = some p →
       jsTruthy p.token = false →
       jsTruthy p.apiKey = false →
       p.username = some un →
       p.password = some pw →
       un ≠ [] →
       pw ≠ [] →
       mapGet clientIp st.auth.rateLimits =
         some ⟨k, tl, some (tl + config.auth.lockoutDuration)⟩ →
       tl + config.auth.lockoutDuration ≤ now →
       validateCredentials un pw = true →
       mapGet un st.auth.users = some u →
       ∃ tok,
         (handleAuthMessage config st m clientId clientIp now).out =
           OutMsg.result (.authSuccess u.id u.username u.role u.permissions (some tok))
             m.id) := by
  refine ⟨?_, ?_, ?_⟩
  · intro username password clientIp st ts t hbad hstart hlen
    have h := (failAuthRun_snoc_record config.auth username password clientIp st hbad
      hstart ts t (le_of_eq hlen)).1
    rw [h, hlen, if_pos (le_refl _)]
  · intro st m p clientId clientIp now k tl lu hp htok hkey hun hpw hrec hnow
    have hirl : isRateLimited config.auth st.auth clientIp now = true := by
      simp [isRateLimited, hrec, hnow]
    have hauth : authenticateUser config.auth st.auth (p.username.getD [])
        (p.password.getD []) clientIp now =
        (st.auth,
         { success := false,
           error :=
             some (lit ("Too many failed attempts. Please try again later.")) }) := by
      simp only [authenticateUser, hirl, reduceIte]
    simp only [handleAuthMessage, hp, htok, hkey, hun, hpw, Bool.false_eq_true,
      reduceIte, Bool.and_self, Bool.not_true, Bool.not_false, Bool.false_and,
      Bool.true_and, hauth, Option.getD_some]
  · intro st m p clientId clientIp un pw now k tl u hp htok hkey hun hpw hunne hpwne
      hrec hge hcred husers
    have hun' : jsTruthy p.username = true := by simp [jsTruthy, hun, hunne]
    have hpw' : jsTruthy p.password = true := by simp [jsTruthy, hpw, hpwne]
    have hirl : isRateLimited config.auth st.auth clientIp now = false := by
      simp [isRateLimited, hrec]
      omega
    have hgd1 : p.username.getD [] = un := by rw [hun]; rfl
    have hgd2 : p.password.getD [] = pw := by rw [hpw]; rfl
    have hauth : authenticateUser config.auth st.auth (p.username.getD [])
        (p.password.getD []) clientIp now =
        ((⟨mapSet un { u with lastLogin := some now } st.auth.users,
           mapSet (generateTokenStr config.auth { u with lastLogin := some now } now)
             (tokenPayload config.auth { u with lastLogin := some now } now)
             st.auth.sessions,
           mapDelete clientIp st.auth.rateLimits⟩ : AuthState),
         { success := true, user := some { u with lastLogin := some now },
           token :=
             some (generateTokenStr config.auth { u with lastLogin := some now } now) }) := by
      simp only [authenticateUser, hirl, Bool.false_eq_true, reduceIte, hgd1, hgd2,
        hcred, Bool.not_true, husers, generateToken]
    refine ⟨generateTokenStr config.auth { u with lastLogin := some now } now, ?_⟩
    simp only [handleAuthMessage, hp, htok, hkey, hun', hpw', Bool.false_eq_true,
      reduceIte, Bool.and_self, Bool.not_true, Bool.not_false, Bool.false_and,
      Bool.true_and, hauth]

/-- C4 witness for the amended claim: a concretely locked address rejects the
correct admin credentials with `AUTH_ERROR`, and after the lockout expires the
same credentials succeed. -/
theorem c4_lockout_amended_witness :
    (handleAuthMessage
        ⟨⟨lit ("secret"), [], 1000, 3, 5000⟩, true, 60, [lit ("SELECT")], true⟩
        ⟨[], [], ⟨defaultUsers, [], [(lit ("ip"), ⟨3, 2, some 5002⟩)]⟩⟩
        { type := some (lit ("auth")),
          payload := some { username := some (lit ("admin")),
                            password := some (lit ("admin123")) },
          id := some (lit ("9")), size := 60 }
        (lit ("c1")) (lit ("ip")) 3).out =
      OutMsg.error (lit ("AUTH_ERROR"))
        (lit ("Too many failed attempts. Please try again later.")) (some (lit ("9"))) ∧
    (∃ tok,
      (handleAuthMessage
          ⟨⟨lit ("secret"), [], 1000, 3, 5000⟩, true, 60, [lit ("SELECT")], true⟩
          ⟨[], [], ⟨defaultUsers, [], [(lit ("ip"), ⟨3, 2, some 5002⟩)]⟩⟩
          { type := some (lit ("auth")),
            payload := some { username := some (lit ("admin")),
                              password := some (lit ("admin123")) },
            id := some (lit ("9")), size := 60 }
          (lit ("c1")) (lit ("ip")) 6000).out =
        OutMsg.result
          (.authSuccess (lit ("admin-001")) (lit ("admin")) (lit ("admin"))
            [lit ("read"), lit ("write"), lit ("delete"), lit ("admin")] (some tok))
          (some (lit ("9")))) := by
  constructor
  · exact (c4_lockout_amended
      ⟨⟨lit ("secret"), [], 1000, 3, 5000⟩, true, 60, [lit ("SELECT")], true⟩).2.1
      ⟨[], [], ⟨defaultUsers, [], [(lit ("ip"), ⟨3, 2, some 5002⟩)]⟩⟩
      { type := some (lit ("auth")),
        payload := some { username := some (lit ("admin")),
                          password := some (lit ("admin123")) },
        id := some (lit ("9")), size := 60 }
      { username := some (lit ("admin")), password := some (lit ("admin123")) }
      (lit ("c1")) (lit ("ip")) 3 3 2 5002
      rfl (by decide) (by decide) (by decide) (by decide) (by decide) (by decide)
  · obtain ⟨tok, htok⟩ := (c4_lockout_amended
      ⟨⟨lit ("secret"), [], 1000, 3, 5000⟩, true, 60, [lit ("SELECT")], true⟩).2.2
      ⟨[], [], ⟨defaultUsers, [], [(lit ("ip"), ⟨3, 2, some 5002⟩)]⟩⟩
      { type := some (lit ("auth")),
        payload := some { username := some (lit ("admin")),
                          password := some (lit ("admin123")) },
        id := some (lit ("9")), size := 60 }
      { username := some (lit ("admin")), password := some (lit ("admin123")) }
      (lit ("c1")) (lit ("ip")) (lit ("admin")) (lit ("admin123")) 6000 3 2
      ((defaultUsers.getD 0 (lit (""), ⟨[], [], [], [], 0, none⟩)).2)
      rfl (by decide) (by decide) (by decide) (by decide) (by decide) (by decide)
      (by decide) (by decide) (by decide) (by decide)
    exact ⟨tok, htok⟩

/-! ## Claim C7 -/

/-- C7 counterexample: with audit logging enabled, a well-formed ping message
is answered with a pong result — a terminal outcome — yet no audit-log entry
is written: the audit log stays empty. -/
theorem c7_audit_counterexample :
    (⟨⟨lit ("secret"), [], 1000, 3, 5000⟩, false, 60, [lit ("SELECT")],
        true⟩ : SecurityConfig).enableAuditLog = true ∧
    (handleMessage
        ⟨⟨lit ("secret"), [], 1000, 3, 5000⟩, false, 60, [lit ("SELECT")], true⟩
        ⟨[], [], initialAuthState⟩
        (.msg { type := some (lit ("ping")), payload := some {},
                id := some (lit ("1")), size := 20 })
        (lit ("c1")) (lit ("ip")) (.ok []) 5 1).out =
      OutMsg.result (.pong 5 (lit ("c1"))) (some (lit ("1"))) ∧
    (handleMessage
        ⟨⟨lit ("secret"), [], 1000, 3, 5000⟩, false, 60, [lit ("SELECT")], true⟩
        ⟨[], [], initialAuthState⟩
        (.msg { type := some (lit ("ping")), payload := some {},
                id := some (lit ("1")), size := 20 })
        (lit ("c1")) (lit ("ip")) (.ok []) 5 1).st.auditLog = [] := by
  refine ⟨rfl, by decide, by decide⟩

/-- C7 amended: with audit logging enabled, only the authentication outcomes
and the four query outcomes write an audit entry (exactly one, when the log is
below its 1000-entry cap); the other terminal branches — parse errors,
structural-validation errors, rate-limit rejections, AUTH_REQUIRED rejections,
ping replies and unsupported-type errors — leave the audit log unchanged. -/
theorem c7_audit_amended (config : SecurityConfig)
    (henable : config.enableAuditLog = true) :
    (∀ (st : ServerState) (clientId clientIp : Str) (db : Except Str (List Row))
       (now dur : Nat),
       (handleMessage config st .unparseable clientId clientIp db now dur).st.auditLog
         = st.auditLog) ∧
    (∀ (st : ServerState) (m : WsMsg) (clientId clientIp : Str)
       (db : Except Str (List Row)) (now dur : Nat),
       validateWebSocketMessage m ≠ [] →
       (handleMessage config st (.msg m) clientId clientIp db now dur).st.auditLog
         = st.auditLog) ∧
    (∀ (st : ServerState) (m : WsMsg) (clientId clientIp : Str)
       (db : Except Str (List Row)) (now dur : Nat),
       validateWebSocketMessage m = [] →
       (checkRateLimit config st clientId now).2 = false →
       (handleMessage config st (.msg m) clientId clientIp db now dur).st.auditLog
         = st.auditLog) ∧
    (∀ (st : ServerState) (m : WsMsg) (clientId clientIp : Str)
       (db : Except Str (List Row)) (now dur : Nat),
       validateWebSocketMessage m = [] →
       m.type ≠ some (lit ("auth")) →
       config.requireAuth = true →
       mapGet clientId st.authenticatedClients = none →
       (handleMessage config st (.msg m) clientId clientIp db now dur).st.auditLog
         = st.auditLog) ∧
    (∀ (st : ServerState) (m : WsMsg) (clientId clientIp : Str)
       (db : Except Str (List Row)) (now dur : Nat),
       validateWebSocketMessage m = [] →
       (checkRateLimit config st clientId now).2 = true →
       m.type = some (lit ("ping")) →
       (handleMessage config st (.msg m) clientId clientIp db now dur).st.auditLog
         = st.auditLog) ∧
    (∀ (st : ServerState) (m : WsMsg) (clientId clientIp : Str)
       (db : Except Str (List Row)) (now dur : Nat),
       validateWebSocketMessage m = [] →
       (checkRateLimit config st clientId now).2 = true →
       m.type ≠ some (lit ("auth")) →
       m.type ≠ some (lit ("ping")) →
       m.type ≠ some (lit ("query")) →
       (handleMessage config st (.msg m) clientId clientIp db now dur).st.auditLog
         = st.auditLog) ∧
    (∀ (st : ServerState) (m : WsMsg) (p : Payload) (clientId clientIp : Str)
       (db : Except Str (List Row)) (now dur : Nat),
       st.auditLog.length < 1000 →
       validateWebSocketMessage m = [] →
       (checkRateLimit config st clientId now).2 = true →
       m.type = some (lit ("auth")) →
       m.payload = some p →
       (jsTruthy p.token = true ∨ jsTruthy p.apiKey = true ∨
        (jsTruthy p.username && jsTruthy p.password) = true) →
       ∃ e : AuditEntry, e.action = lit ("authentication") ∧
         (handleMessage config st (.msg m) clientId clientIp db now dur).st.auditLog
           = st.auditLog ++ [e]) ∧
    (∀ (st : ServerState) (m : WsMsg) (p : Payload) (clientId clientIp : Str)
       (db : Except Str (List Row)) (now dur : Nat),
       st.auditLog.length < 1000 →
       validateWebSocketMessage m = [] →
       (checkRateLimit config st clientId now).2 = true →
       m.type = some (lit ("query")) →
       m.payload = some p →
       (config.requireAuth && (mapGet clientId st.authenticatedClients).isNone) = false →
       ∃ e : AuditEntry,
         (handleMessage config st (.msg m) clientId clientIp db now dur).st.auditLog
           = st.auditLog ++ [e]) := by
  refine ⟨?_, ?_, ?_, ?_, ?_, ?_, ?_, ?_⟩
  · intro st clientId clientIp db now dur
    rfl
  · intro st m clientId clientIp db now dur herrs
    simp only [handleMessage]
    rw [if_pos herrs]
  · intro st m clientId clientIp db now dur herrs hrok
    obtain ⟨st1, hcr, hlog⟩ : ∃ s, checkRateLimit config st clientId now = (s, false) ∧
        s.auditLog = st.auditLog :=
      ⟨(checkRateLimit config st clientId now).1, by rw [← hrok],
       checkRateLimit_fst_auditLog config st clientId now⟩
    simp only [handleMessage, herrs, ne_eq, not_true_eq_false, Bool.false_eq_true,
      reduceIte, hcr, Bool.not_false, if_true]
    exact hlog
  · intro st m clientId clientIp db now dur herrs htypa hreq hnone
    have hcr : checkRateLimit config st clientId now = (st, true) := by
      simp only [checkRateLimit, hnone]
    simp only [handleMessage, herrs, ne_eq, not_true_eq_false, Bool.false_eq_true,
      reduceIte, hcr, Bool.not_true, htypa, if_false, hnone, hreq,
      Option.isNone_none, Bool.and_self, if_true]
  · intro st m clientId clientIp db now dur herrs hrok htype
    obtain ⟨st1, hcr, hlog⟩ : ∃ s, checkRateLimit config st clientId now = (s, true) ∧
        s.auditLog = st.auditLog :=
      ⟨(checkRateLimit config st clientId now).1, by rw [← hrok],
       checkRateLimit_fst_auditLog config st clientId now⟩
    have hne1 : ¬(some (lit ("ping")) = some (lit ("auth"))) := by decide
    by_cases hra : (config.requireAuth &&
        (mapGet clientId st1.authenticatedClients).isNone) = true
    · simp only [handleMessage, herrs, ne_eq, not_true_eq_false, Bool.false_eq_true,
        reduceIte, hcr, Bool.not_true, htype, hne1, if_false, hra, if_true]
      exact hlog
    · rw [Bool.not_eq_true] at hra
      rcases hcl : mapGet clientId st1.authenticatedClients with _ | c
      · simp only [handleMessage, herrs, ne_eq, not_true_eq_false, Bool.false_eq_true,
          reduceIte, hcr, Bool.not_true, htype, hne1, if_false, hcl,
          eq_self_iff_true, if_true]
        split <;> exact hlog
      · simp only [handleMessage, herrs, ne_eq, not_true_eq_false, Bool.false_eq_true,
          reduceIte, hcr, Bool.not_true, htype, hne1, if_false, hcl,
          eq_self_iff_true, if_true]
        split <;> exact hlog
  · intro st m clientId clientIp db now dur herrs hrok htypa htypp htypq
    obtain ⟨st1, hcr, hlog⟩ : ∃ s, checkRateLimit config st clientId now = (s, true) ∧
        s.auditLog = st.auditLog :=
      ⟨(checkRateLimit config st clientId now).1, by rw [← hrok],
       checkRateLimit_fst_auditLog config st clientId now⟩
    by_cases hra : (config.requireAuth &&
        (mapGet clientId st1.authenticatedClients).isNone) = true
    · simp only [handleMessage, herrs, ne_eq, not_true_eq_false, Bool.false_eq_true,
        reduceIte, hcr, Bool.not_true, htypa, if_false, hra, if_true]
      exact hlog
    · rw [Bool.not_eq_true] at hra
      rcases hcl : mapGet clientId st1.authenticatedClients with _ | c
      · simp only [handleMessage, herrs, ne_eq, not_true_eq_false, Bool.false_eq_true,
          reduceIte, hcr, Bool.not_true, htypa, htypp, htypq, if_false, hcl]
        split <;> exact hlog
      · simp only [handleMessage, herrs, ne_eq, not_true_eq_false, Bool.false_eq_true,
          reduceIte, hcr, Bool.not_true, htypa, htypp, htypq, if_false, hcl]
        split <;> exact hlog
  · intro st m p clientId clientIp db now dur hlen herrs hrok htype hp hcred
    obtain ⟨st1, hcr, hlog⟩ : ∃ s, checkRateLimit config st clientId now = (s, true) ∧
        s.auditLog = st.auditLog :=
      ⟨(checkRateLimit config st clientId now).1, by rw [← hrok],
       checkRateLimit_fst_auditLog config st clientId now⟩
    have hmain : handleMessage config st (.msg m) clientId clientIp db now dur =
        handleAuthMessage config st1 m clientId clientIp now := by
      simp only [handleMessage, herrs, ne_eq, not_true_eq_false, Bool.false_eq_true,
        reduceIte, hcr, Bool.not_true, htype, eq_self_iff_true, if_true]
    obtain ⟨e, hact, hlog2⟩ :=
      handleAuthMessage_audits config st1 m p clientId clientIp now hp hcred
    refine ⟨e, hact, ?_⟩
    rw [hmain, hlog2, hlog, logAudit_append config st.auditLog e henable hlen]
  · intro st m p clientId clientIp db now dur hlen herrs hrok htype hp hna
    have hne1 : ¬(some (lit ("query")) = some (lit ("auth"))) := by decide
    have hne2 : ¬(some (lit ("query")) = some (lit ("ping"))) := by decide
    rcases hclient : mapGet clientId st.authenticatedClients with _ | c
    · -- no stored client record: the dispatch hypothesis forces requireAuth off
      have hcr : checkRateLimit config st clientId now = (st, true) := by
        simp only [checkRateLimit, hclient]
      have hreq : config.requireAuth = false := by
        rw [hclient] at hna
        simpa using hna
      have hmain : handleMessage config st (.msg m) clientId clientIp db now dur =
          handleQueryMessage config st m clientId none db now dur := by
        simp only [handleMessage, herrs, ne_eq, not_true_eq_false, Bool.false_eq_true,
          reduceIte, hcr, Bool.not_true, htype, hne1, hne2, if_false, hreq,
          Bool.false_and, hclient, eq_self_iff_true, if_true]
      obtain ⟨e, hlog2⟩ :=
        handleQueryMessage_audits config st m p clientId none db now dur hp
      exact ⟨e, by rw [hmain, hlog2, logAudit_append config st.auditLog e henable hlen]⟩
    · -- a stored client (anonymous or authenticated): the throttled and
      -- activity-updated record rides through to the query handler
      obtain ⟨c1, hc1⟩ : ∃ c1 : ClientRec,
          c1 = if c.lastActivity < now - 60000 then { c with requestCount := 0 } else c :=
        ⟨_, rfl⟩
      have hrl : checkRateLimit config st clientId now =
          ({ st with authenticatedClients := mapSet clientId c1 st.authenticatedClients },
           decide (c1.requestCount < config.maxRequestsPerMinute)) := by
        rw [hc1]
        simp only [checkRateLimit, hclient]
      have hrokP : c1.requestCount < config.maxRequestsPerMinute := by
        rw [hrl] at hrok
        exact of_decide_eq_true hrok
      have hmain : handleMessage config st (.msg m) clientId clientIp db now dur =
          handleQueryMessage config
            { st with
                authenticatedClients :=
                  mapSet clientId
                    { c1 with lastActivity := now, requestCount := c1.requestCount + 1 }
                    (mapSet clientId c1 st.authenticatedClients) }
            m clientId
            (some { c1 with lastActivity := now, requestCount := c1.requestCount + 1 })
            db now dur := by
        simp only [handleMessage, herrs, ne_eq, not_true_eq_false, Bool.false_eq_true,
          reduceIte, hrl, hrokP, decide_True, Bool.not_true, htype, hne1, hne2,
          if_false, mapGet_mapSet_self, Option.isNone_some, Bool.and_false,
          eq_self_iff_true, if_true]
      obtain ⟨e, hlog2⟩ :=
        handleQueryMessage_audits config
          { st with
              authenticatedClients :=
                mapSet clientId
                  { c1 with lastActivity := now, requestCount := c1.requestCount + 1 }
                  (mapSet clientId c1 st.authenticatedClients) }
          m p clientId
          (some { c1 with lastActivity := now, requestCount := c1.requestCount + 1 })
          db now dur hp
      refine ⟨e, ?_⟩
      rw [hmain, hlog2]
      show logAudit config st.auditLog e = st.auditLog ++ [e]
      rw [logAudit_append config st.auditLog e henable hlen]

/-- C7 witness for the amended claim: concretely, a ping leaves the audit log
empty, a failed password authentication appends exactly one `authentication`
entry, and — with authentication required — an authenticated client's query
appends exactly one entry. -/
theorem c7_audit_amended_witness :
    (handleMessage
        ⟨⟨lit ("secret"), [], 1000, 3, 5000⟩, false, 60, [lit ("SELECT")], true⟩
        ⟨[], [], initialAuthState⟩
        (.msg { type := some (lit ("ping")), payload := some {},
                id := some (lit ("1")), size := 20 })
        (lit ("c1")) (lit ("ip")) (.ok []) 5 1).st.auditLog = [] ∧
    (∃ e : AuditEntry, e.action = lit ("authentication") ∧
      (handleMessage
          ⟨⟨lit ("secret"), [], 1000, 3, 5000⟩, false, 60, [lit ("SELECT")], true⟩
          ⟨[], [], initialAuthState⟩
          (.msg { type := some (lit ("auth")),
                  payload := some { username := some (lit ("admin")),
                                    password := some (lit ("nope")) },
                  id := some (lit ("2")), size := 30 })
          (lit ("c1")) (lit ("ip")) (.ok []) 5 1).st.auditLog = [] ++ [e]) ∧
    (∃ e : AuditEntry,
      (handleMessage
          ⟨⟨lit ("secret"), [], 1000, 3, 5000⟩, true, 60, [lit ("SELECT")], true⟩
          ⟨[(lit ("c1"), ⟨anonymousUser 0, lit ("c1"), 0, 0, 0⟩)], [],
            initialAuthState⟩
          (.msg { type := some (lit ("query")),
                  payload := some { sql := some (lit ("SELECT 1")) },
                  id := some (lit ("3")), size := 30 })
          (lit ("c1")) (lit ("ip")) (.ok []) 5 1).st.auditLog = [] ++ [e]) := by
  refine ⟨?_, ?_, ?_⟩
  · exact (c7_audit_amended
      ⟨⟨lit ("secret"), [], 1000, 3, 5000⟩, false, 60, [lit ("SELECT")], true⟩
      rfl).2.2.2.2.1
      ⟨[], [], initialAuthState⟩
      { type := some (lit ("ping")), payload := some {},
        id := some (lit ("1")), size := 20 }
      (lit ("c1")) (lit ("ip")) (.ok []) 5 1 (by decide) (by decide) rfl
  · obtain ⟨e, hact, hlog⟩ := (c7_audit_amended
      ⟨⟨lit ("secret"), [], 1000, 3, 5000⟩, false, 60, [lit ("SELECT")], true⟩
      rfl).2.2.2.2.2.2.1
      ⟨[], [], initialAuthState⟩
      { type := some (lit ("auth")),
        payload := some { username := some (lit ("admin")),
                          password := some (lit ("nope")) },
        id := some (lit ("2")), size := 30 }
      { username := some (lit ("admin")), password := some (lit ("nope")) }
      (lit ("c1")) (lit ("ip")) (.ok []) 5 1
      (by decide) (by decide) (by decide) rfl rfl
      (Or.inr (Or.inr (by decide)))
    exact ⟨e, hact, hlog⟩
  · obtain ⟨e, hlog⟩ := (c7_audit_amended
      ⟨⟨lit ("secret"), [], 1000, 3, 5000⟩, true, 60, [lit ("SELECT")], true⟩
      rfl).2.2.2.2.2.2.2
      ⟨[(lit ("c1"), ⟨anonymousUser 0, lit ("c1"), 0, 0, 0⟩)], [], initialAuthState⟩
      { type := some (lit ("query")),
        payload := some { sql := some (lit ("SELECT 1")) },
        id := some (lit ("3")), size := 30 }
      { sql := some (lit ("SELECT 1")) }
      (lit ("c1")) (lit ("ip")) (.ok []) 5 1
      (by decide) (by decide) (by decide) rfl rfl (by decide)
    exact ⟨e, hlog⟩

/-! ## Claim C3 -/

theorem charSextet_sextetChar : ∀ n, n < 64 → charSextet (sextetChar n) = some n := by
  decide

theorem sextetChar_ne_pad (n : Nat) : sextetChar n ≠ '=' := by
  by_cases h : n < 64
  · exact (by decide : ∀ m, m < 64 → sextetChar m ≠ '=') n h
  · simp only [sextetChar]
    rw [List.getD_eq_default]
    · decide
    · have hlen : b64Chars.length = 64 := by decide
      omega

theorem b64_roundtrip_bytes : ∀ (l : List Nat), (∀ a ∈ l, a < 256) →
    b64DecodeBytes (b64EncodeBytes l) = some l
  | [], _ => rfl
  | [a], h => by
    have ha : a < 256 := h a (by simp)
    simp only [b64EncodeBytes, b64DecodeBytes,
      charSextet_sextetChar (a / 4) (by omega),
      charSextet_sextetChar (a % 4 * 16) (by omega)]
    simp
    omega
  | [a, b], h => by
    have ha : a < 256 := h a (by simp)
    have hb : b < 256 := h b (by simp)
    simp only [b64EncodeBytes]
    rw [b64DecodeBytes.eq_def]
    split
    · next heq => simp at heq
    · next w x heq =>
      simp only [List.cons.injEq] at heq
      exact absurd heq.2.2.1 (sextetChar_ne_pad _)
    · next w x y hne heq =>
      simp only [List.cons.injEq, and_true] at heq
      obtain ⟨hw, hx, hy⟩ := heq
      rw [← hw, ← hx, ← hy,
        charSextet_sextetChar (a / 4) (by omega),
        charSextet_sextetChar (a % 4 * 16 + b / 16) (by omega),
        charSextet_sextetChar (b % 16 * 4) (by omega)]
      simp
      omega
    · next w x y z rest2 hn1 hn2 heq =>
      simp only [List.cons.injEq] at heq
      exact absurd heq.2.2.2.1.symm (hn2 · heq.2.2.2.2.symm)
    · next hn1 hn2 hn3 hn4 =>
      exact absurd rfl (hn3 (sextetChar (a / 4)) (sextetChar (a % 4 * 16 + b / 16))
        (sextetChar (b % 16 * 4)))
  | a :: b :: c :: rest, h => by
    have ha : a < 256 := h a (by simp)
    have hb : b < 256 := h b (by simp)
    have hc : c < 256 := h c (by simp)
    have ih := b64_roundtrip_bytes rest (fun x hx => h x (by simp [hx]))
    rw [show b64EncodeBytes (a :: b :: c :: rest) =
        sextetChar (a / 4) :: sextetChar (a % 4 * 16 + b / 16) ::
        sextetChar (b % 16 * 4 + c / 64) :: sextetChar (c % 64) ::
        b64EncodeBytes rest from rfl]
    rw [b64DecodeBytes.eq_def]
    split
    · next heq => simp at heq
    · next w x heq =>
      simp only [List.cons.injEq] at heq
      exact absurd heq.2.2.1 (sextetChar_ne_pad _)
    · next w x y hne heq =>
      simp only [List.cons.injEq] at heq
      exact absurd heq.2.2.2.1 (sextetChar_ne_pad _)
    · next w x y z rest2 hn1 hn2 heq =>
      simp only [List.cons.injEq] at heq
      obtain ⟨hw, hx, hy, hz, hrest⟩ := heq
      rw [← hw, ← hx, ← hy, ← hz, ← hrest,
        charSextet_sextetChar (a / 4) (by omega),
        charSextet_sextetChar (a % 4 * 16 + b / 16) (by omega),
        charSextet_sextetChar (b % 16 * 4 + c / 64) (by omega),
        charSextet_sextetChar (c % 64) (by omega), ih]
      simp
      omega
    · next hn1 hn2 hn3 hn4 =>
      exact absurd rfl (hn4 (sextetChar (a / 4)) (sextetChar (a % 4 * 16 + b / 16))
        (sextetChar (b % 16 * 4 + c / 64)) (sextetChar (c % 64)) (b64EncodeBytes rest))


theorem b64_roundtrip (s : Str) (h : ∀ c ∈ s, c.toNat < 256) :
    b64Decode (b64Encode s) = some s := by
  rw [b64Encode, b64Decode, b64_roundtrip_bytes (s.map Char.toNat) (by
    intro a hx
    simp only [List.mem_map] at hx
    obtain ⟨c, hc, rfl⟩ := hx
    exact h c hc)]
  have hcomp : Char.ofNat ∘ Char.toNat = id := funext Char.ofNat_toNat
  simp [hcomp]

theorem splitOnChar_ne_nil (sep : Char) (s : Str) : splitOnChar sep s ≠ [] := by
  cases s with
  | nil => simp [splitOnChar]
  | cons c cs =>
    rw [splitOnChar]
    split <;> split <;> simp

theorem splitOnChar_not_mem (sep : Char) (s : Str) (h : sep ∉ s) :
    splitOnChar sep s = [s] := by
  induction s with
  | nil => rfl
  | cons c cs ih =>
    simp only [List.mem_cons, not_or] at h
    rw [splitOnChar, ih h.2]
    simp [Ne.symm h.1]

theorem splitOnChar_append (sep : Char) (l r : Str) (h : sep ∉ l) :
    splitOnChar sep (l ++ sep :: r) = l :: splitOnChar sep r := by
  induction l with
  | nil =>
    simp only [List.nil_append, splitOnChar]
    rcases h2 : splitOnChar sep r with _ | ⟨hd, tl⟩
    · exact absurd h2 (splitOnChar_ne_nil sep r)
    · simp
  | cons c cs ih =>
    simp only [List.mem_cons, not_or] at h
    rw [List.cons_append, splitOnChar, ih h.2]
    simp [Ne.symm h.1]

theorem stripPrefixLit_append (p s : Str) : stripPrefixLit p (p ++ s) = some s := by
  induction p with
  | nil => simp [stripPrefixLit]
  | cons a as ih => simp [stripPrefixLit, ih]

theorem splitAtChar_append (ch : Char) (fld rest : Str) (h : ch ∉ fld) :
    splitAtChar ch (fld ++ ch :: rest) = some (fld, rest) := by
  induction fld with
  | nil => simp [splitAtChar]
  | cons c cs ih =>
    simp only [List.mem_cons, not_or] at h
    simp [splitAtChar, Ne.symm h.1, ih h.2]

theorem unquote_quote (p : Str) : unquoteElem ('"' :: (p ++ ['"'])) = some p := by
  simp [unquoteElem, List.reverse_append]

theorem mapM_loop_unquote : ∀ (xs : List Str) (acc : List Str),
    List.mapM.loop unquoteElem (xs.map (fun s => '"' :: (s ++ ['"']))) acc =
      some (acc.reverse ++ xs)
  | [], acc => by simp [List.mapM.loop]
  | x :: xs, acc => by
    simp [List.mapM.loop, unquote_quote, mapM_loop_unquote xs (x :: acc)]

theorem mapM_unquote_quote (xs : List Str) :
    (xs.map (fun s => '"' :: (s ++ ['"']))).mapM unquoteElem = some xs := by
  rw [List.mapM, mapM_loop_unquote xs []]
  rfl

theorem mem_joinSep (sep : Str) : ∀ (xs : List Str) (c : Char), c ∈ joinSep sep xs →
    c ∈ sep ∨ ∃ x ∈ xs, c ∈ x
  | [], c, h => by simp [joinSep] at h
  | [x], c, h => by
    rw [show joinSep sep [x] = x from rfl] at h
    exact Or.inr ⟨x, by simp, h⟩
  | x :: y :: xs, c, h => by
    rw [show joinSep sep (x :: y :: xs) = x ++ sep ++ joinSep sep (y :: xs) from rfl] at h
    simp only [List.mem_append] at h
    rcases h with (h | h) | h
    · exact Or.inr ⟨x, by simp, h⟩
    · exact Or.inl h
    · rcases mem_joinSep sep (y :: xs) c h with h2 | ⟨z, hz, hcz⟩
      · exact Or.inl h2
      · refine Or.inr ⟨z, ?_, hcz⟩
        simp only [List.mem_cons] at hz ⊢
        tauto

theorem splitOnChar_joinSep (sep : Char) : ∀ (xs : List Str), xs ≠ [] →
    (∀ x ∈ xs, sep ∉ x) → splitOnChar sep (joinSep [sep] xs) = xs
  | [], h, _ => absurd rfl h
  | [x], _, hx => by
    rw [show joinSep [sep] [x] = x from rfl]
    exact splitOnChar_not_mem sep x (hx x (by simp))
  | x :: y :: xs, _, hx => by
    rw [show joinSep [sep] (x :: y :: xs) = x ++ [sep] ++ joinSep [sep] (y :: xs)
      from rfl]
    rw [List.append_assoc, List.singleton_append,
      splitOnChar_append sep x _ (hx x (by simp))]
    rw [splitOnChar_joinSep sep (y :: xs) (by simp) (by
      intro z hz
      refine hx z ?_
      simp only [List.mem_cons] at hz ⊢
      tauto)]

theorem natToStr_chars : ∀ (n : Nat), ∀ c ∈ natToStr n, ∃ m, m < 10 ∧ c = Char.ofNat (48 + m) := by
  intro n
  induction n using Nat.strong_induction_on with
  | _ n ih =>
    intro c hc
    rw [natToStr] at hc
    by_cases h : n < 10
    · rw [dif_pos h] at hc
      simp only [List.mem_singleton] at hc
      exact ⟨n, h, hc⟩
    · rw [dif_neg h] at hc
      simp only [List.mem_append, List.mem_singleton] at hc
      rcases hc with hc | hc
      · exact ih (n / 10) (Nat.div_lt_self (by omega) (by omega)) c hc
      · exact ⟨n % 10, Nat.mod_lt _ (by omega), hc⟩

theorem natToStr_ne_nil (n : Nat) : natToStr n ≠ [] := by
  rw [natToStr]
  by_cases h : n < 10
  · rw [dif_pos h]; simp
  · rw [dif_neg h]; simp

theorem natToStr_all_isDigit (n : Nat) : (natToStr n).all Char.isDigit = true := by
  rw [List.all_eq_true]
  intro c hc
  obtain ⟨m, hm, rfl⟩ := natToStr_chars n c hc
  exact (by decide : ∀ m, m < 10 → (Char.ofNat (48 + m)).isDigit = true) m hm

theorem natToStr_foldl : ∀ (n : Nat),
    (natToStr n).foldl (fun a c => a * 10 + (c.toNat - 48)) 0 = n := by
  intro n
  induction n using Nat.strong_induction_on with
  | _ n ih =>
    rw [natToStr]
    by_cases h : n < 10
    · rw [dif_pos h]
      simp only [List.foldl_cons, List.foldl_nil]
      rw [(by decide : ∀ m, m < 10 → (Char.ofNat (48 + m)).toNat = 48 + m) n h]
      omega
    · rw [dif_neg h, List.foldl_append,
        ih (n / 10) (Nat.div_lt_self (by omega) (by omega))]
      simp only [List.foldl_cons, List.foldl_nil]
      rw [(by decide : ∀ m, m < 10 → (Char.ofNat (48 + m)).toNat = 48 + m) (n % 10)
        (Nat.mod_lt _ (by omega))]
      omega

theorem parseNat_natToStr (n : Nat) : parseNat (natToStr n) = some n := by
  rw [parseNat, if_pos ⟨natToStr_ne_nil n, natToStr_all_isDigit n⟩, natToStr_foldl]

theorem takeWhile_append_not (P : Char → Bool) : ∀ (d : Str) (c : Char) (r : Str),
    d.all P = true → P c = false →
    (d ++ c :: r).takeWhile P = d ∧ (d ++ c :: r).dropWhile P = c :: r
  | [], c, r, _, hc => by simp [List.takeWhile_cons, List.dropWhile_cons, hc]
  | x :: d, c, r, hd, hc => by
    simp only [List.all_cons, Bool.and_eq_true] at hd
    have ih := takeWhile_append_not P d c r hd.2 hc
    simp [List.takeWhile_cons, List.dropWhile_cons, hd.1, ih.1, ih.2]


theorem cleanStr_spec (s : Str) (h : cleanStr s = true) :
    ∀ c ∈ s, c.toNat < 256 ∧ c ≠ '"' ∧ c ≠ '.' ∧ c ≠ ',' ∧ c ≠ ']' := by
  intro c hc
  rw [cleanStr, List.all_eq_true] at h
  simpa [cleanChar] using h c hc

theorem mem_quote (c : Char) (p : Str) (h : c ∈ '"' :: (p ++ ['"'])) :
    c = '"' ∨ c ∈ p := by
  simp only [List.mem_cons, List.mem_append, List.mem_singleton] at h
  tauto

theorem parseStrList_jsonStrList (perms : List Str) (rest : Str)
    (hp : perms.all cleanStr = true) :
    parseStrList (jsonStrList perms ++ rest) = some (perms, rest) := by
  have hps : ∀ p ∈ perms, ∀ c ∈ p,
      c.toNat < 256 ∧ c ≠ '"' ∧ c ≠ '.' ∧ c ≠ ',' ∧ c ≠ ']' := by
    intro p hp2 c hc
    rw [List.all_eq_true] at hp
    exact cleanStr_spec p (hp p hp2) c hc
  rcases perms with _ | ⟨q, qs⟩
  · rw [show jsonStrList [] ++ rest = '[' :: (']' :: rest) from rfl]
    simp [parseStrList, splitAtChar]
  · have hshape : jsonStrList (q :: qs) ++ rest =
        '[' :: (joinSep [','] ((q :: qs).map (fun s => '"' :: (s ++ ['"']))) ++
          ']' :: rest) := by
      simp [jsonStrList, List.append_assoc]
    have hinner : ∀ c ∈ joinSep [','] ((q :: qs).map (fun s => '"' :: (s ++ ['"']))),
        c ≠ ']' := by
      intro c hc
      rcases mem_joinSep [','] _ c hc with h | ⟨x, hx, hcx⟩
      · simp only [List.mem_singleton] at h
        subst h
        decide
      · simp only [List.mem_map] at hx
        obtain ⟨p, hpmem, rfl⟩ := hx
        rcases mem_quote c p hcx with rfl | hcp
        · decide
        · exact (hps p hpmem c hcp).2.2.2.2
    have hcomma : ∀ x ∈ (q :: qs).map (fun s => '"' :: (s ++ ['"'])), ',' ∉ x := by
      intro x hx hmem
      simp only [List.mem_map] at hx
      obtain ⟨p, hpmem, rfl⟩ := hx
      rcases mem_quote ',' p hmem with h | h
      · exact absurd h (by decide)
      · exact (hps p hpmem ',' h).2.2.2.1 rfl
    have hne : joinSep [','] ((q :: qs).map (fun s => '"' :: (s ++ ['"']))) ≠ [] := by
      rcases qs with _ | ⟨y, ys⟩ <;> simp [joinSep]
    rw [hshape, parseStrList]
    rw [splitAtChar_append ']' _ _ (fun h => hinner ']' h rfl)]
    simp only [hne, reduceIte,
      splitOnChar_joinSep ',' ((q :: qs).map (fun s => '"' :: (s ++ ['"'])))
        (by simp) hcomma,
      mapM_unquote_quote]


theorem parseAuthToken_stringify (t : AuthToken)
    (h1 : cleanStr t.userId = true) (h2 : cleanStr t.username = true)
    (h3 : cleanStr t.role = true) (h4 : t.permissions.all cleanStr = true) :
    parseAuthToken (jsonStringifyAuthToken t) = some t := by
  have hq1 : '"' ∉ t.userId := fun h => (cleanStr_spec _ h1 '"' h).2.1 rfl
  have hq2 : '"' ∉ t.username := fun h => (cleanStr_spec _ h2 '"' h).2.1 rfl
  have hq3 : '"' ∉ t.role := fun h => (cleanStr_spec _ h3 '"' h).2.1 rfl
  have hP2 : lit ("\x22,\x22username\x22:\x22") = '"' :: lit (",\x22username\x22:\x22") := by
    decide
  have hP3 : lit ("\x22,\x22role\x22:\x22") = '"' :: lit (",\x22role\x22:\x22") := by decide
  have hP4 : lit ("\x22,\x22permissions\x22:") = '"' :: lit (",\x22permissions\x22:") := by
    decide
  have hS : jsonStringifyAuthToken t =
      lit ("\x7b\x22userId\x22:\x22") ++ (t.userId ++ '"' ::
        (lit (",\x22username\x22:\x22") ++ (t.username ++ '"' ::
          (lit (",\x22role\x22:\x22") ++ (t.role ++ '"' ::
            (lit (",\x22permissions\x22:") ++ (jsonStrList t.permissions ++
              (lit (",\x22issuedAt\x22:") ++ (natToStr t.issuedAt ++ ',' ::
                (lit ("\x22expiresAt\x22:") ++ (natToStr t.expiresAt ++
                  ['\x7d']))))))))))) := by
    have hA5 : lit (",\x22expiresAt\x22:") = ',' :: lit ("\x22expiresAt\x22:") := by decide
    have hP7 : lit ("\x7d") = ['\x7d'] := by decide
    simp [jsonStringifyAuthToken, hP2, hP3, hP4, hA5, hP7, List.append_assoc]
  rw [parseAuthToken, hS]
  rw [stripPrefixLit_append]
  simp only [Option.bind_eq_bind, Option.some_bind]
  rw [splitAtChar_append '"' t.userId _ hq1]
  rw [Option.some_bind]
  rw [stripPrefixLit_append]
  rw [Option.some_bind]
  rw [splitAtChar_append '"' t.username _ hq2]
  rw [Option.some_bind]
  rw [stripPrefixLit_append]
  rw [Option.some_bind]
  rw [splitAtChar_append '"' t.role _ hq3]
  rw [Option.some_bind]
  rw [stripPrefixLit_append]
  rw [Option.some_bind]
  rw [parseStrList_jsonStrList t.permissions _ h4]
  rw [Option.some_bind]
  rw [stripPrefixLit_append]
  rw [Option.some_bind]
  rw [(takeWhile_append_not Char.isDigit (natToStr t.issuedAt) ',' _
      (natToStr_all_isDigit _) (by decide)).1,
    (takeWhile_append_not Char.isDigit (natToStr t.issuedAt) ',' _
      (natToStr_all_isDigit _) (by decide)).2]
  rw [parseNat_natToStr]
  rw [Option.some_bind]
  rw [show (',' :: (lit ("\x22expiresAt\x22:") ++ (natToStr t.expiresAt ++ ['\x7d']))) =
    lit (",\x22expiresAt\x22:") ++ (natToStr t.expiresAt ++ ['\x7d']) from rfl]
  rw [stripPrefixLit_append]
  rw [Option.some_bind]
  rw [(takeWhile_append_not Char.isDigit (natToStr t.expiresAt) '\x7d' []
      (natToStr_all_isDigit _) (by decide)).1,
    (takeWhile_append_not Char.isDigit (natToStr t.expiresAt) '\x7d' []
      (natToStr_all_isDigit _) (by decide)).2]
  rw [parseNat_natToStr]
  rw [Option.some_bind]
  rfl


theorem toHex8_chars (n : Nat) : ∀ c ∈ toHex8 n, c.toNat < 256 ∧ c ≠ '.' := by
  have hfact : ∀ m, m < 16 → (hexDigit m).toNat < 256 ∧ hexDigit m ≠ '.' := by decide
  intro c hc
  simp only [toHex8, List.mem_cons, List.not_mem_nil, or_false] at hc
  rcases hc with rfl | rfl | rfl | rfl | rfl | rfl | rfl | rfl <;>
    exact hfact _ (Nat.mod_lt _ (by omega))

theorem natToStr_ascii (n : Nat) : ∀ c ∈ natToStr n, c.toNat < 256 ∧ c ≠ '.' := by
  intro c hc
  obtain ⟨m, hm, rfl⟩ := natToStr_chars n c hc
  exact (by decide : ∀ m, m < 10 →
    (Char.ofNat (48 + m)).toNat < 256 ∧ Char.ofNat (48 + m) ≠ '.') m hm

theorem jsonStrList_chars (perms : List Str) (hp : perms.all cleanStr = true) :
    ∀ c ∈ jsonStrList perms, c.toNat < 256 ∧ c ≠ '.' := by
  intro c hc
  have hps : ∀ p ∈ perms, ∀ c ∈ p,
      c.toNat < 256 ∧ c ≠ '"' ∧ c ≠ '.' ∧ c ≠ ',' ∧ c ≠ ']' := by
    intro p hp2 c hc2
    rw [List.all_eq_true] at hp
    exact cleanStr_spec p (hp p hp2) c hc2
  simp only [jsonStrList, List.mem_append, List.mem_cons, List.mem_singleton,
    List.not_mem_nil, or_false] at hc
  rcases hc with (rfl | hc) | rfl
  · decide
  · rcases mem_joinSep [','] _ c hc with h | ⟨x, hx, hcx⟩
    · simp only [List.mem_singleton] at h
      subst h
      decide
    · simp only [List.mem_map] at hx
      obtain ⟨p, hpmem, rfl⟩ := hx
      rcases mem_quote c p (by simpa using hcx) with rfl | hcp
      · decide
      · exact ⟨(hps p hpmem c hcp).1, (hps p hpmem c hcp).2.2.1⟩
  · decide

theorem jsonStringify_chars (t : AuthToken)
    (h1 : cleanStr t.userId = true) (h2 : cleanStr t.username = true)
    (h3 : cleanStr t.role = true) (h4 : t.permissions.all cleanStr = true) :
    ∀ c ∈ jsonStringifyAuthToken t, c.toNat < 256 ∧ c ≠ '.' := by
  intro c hc
  simp only [jsonStringifyAuthToken, List.mem_append] at hc
  rcases hc with ((((((((((((hc | hc) | hc) | hc) | hc) | hc) | hc) | hc) | hc) | hc) |
      hc) | hc) | hc)
  · exact (by decide : ∀ c ∈ lit ("\x7b\x22userId\x22:\x22"),
      c.toNat < 256 ∧ c ≠ '.') c hc
  · have h := cleanStr_spec _ h1 c hc
    exact ⟨h.1, h.2.2.1⟩
  · exact (by decide : ∀ c ∈ lit ("\x22,\x22username\x22:\x22"),
      c.toNat < 256 ∧ c ≠ '.') c hc
  · have h := cleanStr_spec _ h2 c hc
    exact ⟨h.1, h.2.2.1⟩
  · exact (by decide : ∀ c ∈ lit ("\x22,\x22role\x22:\x22"),
      c.toNat < 256 ∧ c ≠ '.') c hc
  · have h := cleanStr_spec _ h3 c hc
    exact ⟨h.1, h.2.2.1⟩
  · exact (by decide : ∀ c ∈ lit ("\x22,\x22permissions\x22:"),
      c.toNat < 256 ∧ c ≠ '.') c hc
  · exact jsonStrList_chars t.permissions h4 c hc
  · exact (by decide : ∀ c ∈ lit (",\x22issuedAt\x22:"),
      c.toNat < 256 ∧ c ≠ '.') c hc
  · exact natToStr_ascii t.issuedAt c hc
  · exact (by decide : ∀ c ∈ lit (",\x22expiresAt\x22:"),
      c.toNat < 256 ∧ c ≠ '.') c hc
  · exact natToStr_ascii t.expiresAt c hc
  · exact (by decide : ∀ c ∈ lit ("\x7d"), c.toNat < 256 ∧ c ≠ '.') c hc

theorem decodeToken_eq (config : AuthConfig) (token td sg : Str)
    (hb : b64Decode token = some (td ++ '.' :: sg))
    (hdot_td : '.' ∉ td) (hdot_sg : '.' ∉ sg)
    (hsig : sg = createSignature config.jwtSecret td) :
    decodeToken config token = parseAuthToken td := by
  rw [decodeToken, hb]
  split
  · next heq => simp at heq
  · next decoded heq =>
    obtain rfl : td ++ '.' :: sg = decoded := by injection heq
    rw [splitOnChar_append '.' td sg hdot_td, splitOnChar_not_mem '.' sg hdot_sg]
    split
    · next tokenData signature rest heq2 =>
      simp only [List.cons.injEq] at heq2
      obtain ⟨h1, h3, -⟩ := heq2
      rw [← h1, ← h3, if_pos hsig]
    · next hne =>
      exact absurd rfl (hne td sg [])


theorem decodeToken_generateTokenStr (config : AuthConfig) (u : User) (now : Nat)
    (hu : cleanUser u = true) :
    decodeToken config (generateTokenStr config u now) =
      some (tokenPayload config u now) := by
  obtain ⟨hid, hun, hrole, hperms⟩ :
      cleanStr u.id = true ∧ cleanStr u.username = true ∧ cleanStr u.role = true ∧
        u.permissions.all cleanStr = true := by
    simpa [cleanUser, Bool.and_eq_true, and_assoc] using hu
  have hchars : ∀ c ∈ jsonStringifyAuthToken (tokenPayload config u now),
      c.toNat < 256 ∧ c ≠ '.' :=
    jsonStringify_chars (tokenPayload config u now) hid hun hrole hperms
  have hsigc : ∀ c ∈ createSignature config.jwtSecret
      (jsonStringifyAuthToken (tokenPayload config u now)),
      c.toNat < 256 ∧ c ≠ '.' := toHex8_chars _
  have hb : b64Decode (generateTokenStr config u now) =
      some (jsonStringifyAuthToken (tokenPayload config u now) ++ '.' ::
        createSignature config.jwtSecret
          (jsonStringifyAuthToken (tokenPayload config u now))) := by
    rw [show generateTokenStr config u now =
      b64Encode (jsonStringifyAuthToken (tokenPayload config u now) ++ '.' ::
        createSignature config.jwtSecret
          (jsonStringifyAuthToken (tokenPayload config u now))) from rfl]
    refine b64_roundtrip _ ?_
    intro c hc
    rcases List.mem_append.mp hc with h | h
    · exact (hchars c h).1
    · rcases List.mem_cons.mp h with rfl | h2
      · decide
      · exact (hsigc c h2).1
  rw [decodeToken_eq config _ _ _ hb (fun h => (hchars '.' h).2 rfl)
    (fun h => (hsigc '.' h).2 rfl) rfl]
  exact parseAuthToken_stringify _ hid hun hrole hperms


/-- C3: token round-trip.  For a registered user whose string fields lie in the
clean ASCII fragment (on which the JSON serialization model is faithful), the
token issued by `generateToken` at time `now` carries
`expiresAt = now + sessionTimeout`; validating that exact token string at any
time `t ≤ expiresAt` succeeds and resolves the same identity that issued it,
and validating it at any `t > expiresAt` fails with a `Token expired` error. -/
theorem c3_token_roundtrip (config : AuthConfig) (st : AuthState) (u : User)
    (now t : Nat) (hu : cleanUser u = true)
    (hreg : mapGet u.username st.users = some u) :
    (t ≤ now + config.sessionTimeout →
      validateToken config st (generateTokenStr config u now) t =
        (st, { success := true, user := some u,
               token := some (generateTokenStr config u now) })) ∧
    (now + config.sessionTimeout < t →
      (validateToken config st (generateTokenStr config u now) t).2 =
        { success := false, error := some (lit ("Token expired")) }) := by
  have hdec := decodeToken_generateTokenStr config u now hu
  constructor
  · intro hle
    rw [validateToken, hdec]
    show ((if t > (tokenPayload config u now).expiresAt then
        ({ st with sessions := mapDelete (generateTokenStr config u now) st.sessions },
         { success := false, error := some (lit ("Token expired")) })
      else
        match mapGet (tokenPayload config u now).username st.users with
        | none => (st, { success := false, error := some (lit ("User not found")) })
        | some user =>
          (st, { success := true, user := some user,
                 token := some (generateTokenStr config u now) })) : AuthState × AuthResult) =
      (st, { success := true, user := some u,
             token := some (generateTokenStr config u now) })
    rw [if_neg (show ¬ t > (tokenPayload config u now).expiresAt from by
      show ¬ t > now + config.sessionTimeout
      omega)]
    rw [show (tokenPayload config u now).username = u.username from rfl, hreg]
  · intro hgt
    rw [validateToken, hdec]
    show ((if t > (tokenPayload config u now).expiresAt then
        ({ st with sessions := mapDelete (generateTokenStr config u now) st.sessions },
         { success := false, error := some (lit ("Token expired")) })
      else
        match mapGet (tokenPayload config u now).username st.users with
        | none => (st, { success := false, error := some (lit ("User not found")) })
        | some user =>
          (st, { success := true, user := some user,
                 token := some (generateTokenStr config u now) })) : AuthState × AuthResult).2 =
      { success := false, error := some (lit ("Token expired")) }
    rw [if_pos (show t > (tokenPayload config u now).expiresAt from by
      show t > now + config.sessionTimeout
      omega)]

/-- C3 witness: the default admin user, a session timeout of 1000 ms, a token
issued at time 5: validation at the expiry instant 1005 resolves the admin
identity, validation at 1006 reports the token expired. -/
theorem c3_token_roundtrip_witness :
    (validateToken ⟨lit ("secret"), [], 1000, 3, 5000⟩ initialAuthState
        (generateTokenStr ⟨lit ("secret"), [], 1000, 3, 5000⟩
          { id := lit ("admin-001"), username := lit ("admin"), role := lit ("admin"),
            permissions := [lit ("read"), lit ("write"), lit ("delete"), lit ("admin")],
            createdAt := 0 } 5) 1005 =
      (initialAuthState,
       { success := true,
         user := some { id := lit ("admin-001"), username := lit ("admin"),
                        role := lit ("admin"),
                        permissions := [lit ("read"), lit ("write"), lit ("delete"),
                          lit ("admin")],
                        createdAt := 0 },
         token := some (generateTokenStr ⟨lit ("secret"), [], 1000, 3, 5000⟩
           { id := lit ("admin-001"), username := lit ("admin"), role := lit ("admin"),
             permissions := [lit ("read"), lit ("write"), lit ("delete"), lit ("admin")],
             createdAt := 0 } 5) })) ∧
    ((validateToken ⟨lit ("secret"), [], 1000, 3, 5000⟩ initialAuthState
        (generateTokenStr ⟨lit ("secret"), [], 1000, 3, 5000⟩
          { id := lit ("admin-001"), username := lit ("admin"), role := lit ("admin"),
            permissions := [lit ("read"), lit ("write"), lit ("delete"), lit ("admin")],
            createdAt := 0 } 5) 1006).2 =
      { success := false, error := some (lit ("Token expired")) }) := by
  constructor
  · exact (c3_token_roundtrip ⟨lit ("secret"), [], 1000, 3, 5000⟩ initialAuthState
      { id := lit ("admin-001"), username := lit ("admin"), role := lit ("admin"),
        permissions := [lit ("read"), lit ("write"), lit ("delete"), lit ("admin")],
        createdAt := 0 } 5 1005 (by decide) (by decide)).1 (by decide)
  · exact (c3_token_roundtrip ⟨lit ("secret"), [], 1000, 3, 5000⟩ initialAuthState
      { id := lit ("admin-001"), username := lit ("admin"), role := lit ("admin"),
        permissions := [lit ("read"), lit ("write"), lit ("delete"), lit ("admin")],
        createdAt := 0 } 5 1006 (by decide) (by decide)).2 (by decide)


end WPB
